import Mathlib

/-! VE toolchain driver adapter (lib/Driver/ToolChains/VE.cpp, VE.h)


A shallow embedding of the command construction done by the VE toolchain of the
clang driver: the assembler and linker adapters (`tools::VE::Assembler::ConstructJob`,
`tools::VE::Linker::ConstructJob`) and the include-path resolver of `VEToolChain`.

Argument buffers (`ArgStringList`) are lists of strings, and a function that takes a
buffer by reference takes the buffer and returns the new one.  The option set, the
input descriptors and the helpers of the base tool chain are declared outside the two
source files; they are modelled in the first section below.
-/

set_option autoImplicit false

/-! ## Option set (llvm/Option, clang/Driver/Options) -/

/-- Modelled from the spec: the option identifiers `options::OPT_*` that VE.cpp
queries (clang/Driver/Options.h is not part of the sources).  `OPT_g_Group` is the
debug-info level group; `OPT_other n` stands for every option VE.cpp never names. -/
inductive OptID where
  | OPT_v
  | OPT_g_Group
  | OPT_g0
  | OPT_fverbose_asm
  | OPT_fno_verbose_asm
  | OPT_Wa_COMMA
  | OPT_Xassembler
  | OPT_static
  | OPT_shared
  | OPT_fexceptions
  | OPT_fno_exceptions
  | OPT_L
  | OPT_nostdlib
  | OPT_nodefaultlibs
  | OPT_nostdinc
  | OPT_nobuiltininc
  | OPT_nostdlibinc
  | OPT_nostdincxx
  | OPT_other (n : Nat)
  deriving DecidableEq, Repr

/-- Modelled from the spec: how an argument is written back on a command line
(`Option::RenderStyleKind` of llvm/Option/Option.h, not part of the sources). -/
inductive RenderStyleKind where
  | RenderCommaJoinedStyle
  | RenderJoinedStyle
  | RenderSeparateStyle
  | RenderValuesStyle
  deriving DecidableEq, Repr

/-- Modelled from the spec: a recognised option (`llvm::opt::Option`, not part of the
sources): its identifier, the identifiers of the groups that contain it (innermost
first, the chain `getGroup()` walks) and its render style. -/
structure OptionInfo where
  ID : OptID
  Groups : List OptID
  RenderStyle : RenderStyleKind
  deriving DecidableEq, Repr

/-- Modelled from the spec: `Option::matches(Opt)`: the option is `Opt` itself or a
member of the group `Opt`. -/
def OptionInfo.matches (O : OptionInfo) (Opt : OptID) : Bool :=
  O.ID == Opt || O.Groups.any (fun G => G == Opt)

/-- Modelled from the spec: one parsed argument of the option set (`llvm::opt::Arg`,
not part of the sources): its option, its spelling and its values. -/
structure Arg where
  Opt : OptionInfo
  Spelling : String
  Values : List String
  deriving DecidableEq, Repr

/-- The accessor `Arg::getOption()`. -/
def Arg.getOption (A : Arg) : OptionInfo := A.Opt

/-- The accessor `Arg::getValues()`. -/
def Arg.getValues (A : Arg) : List String := A.Values

/-- An argument buffer (`llvm::opt::ArgStringList`). -/
abbrev ArgStringList := List String

/-- The option set (`llvm::opt::ArgList`): the parsed arguments in the order given. -/
abbrev ArgList := List Arg

/-- Joins the values with commas, as the loop of `RenderCommaJoinedStyle` does. -/
def commaJoin : List String → String
  | [] => ""
  | [v] => v
  | v :: w :: vs => v ++ "," ++ commaJoin (w :: vs)

/-- Modelled from the spec: `Arg::render(Args, Output)` (llvm/Option/Arg.cpp, not part
of the sources): appends the argument as its option's render style writes it. -/
def Arg.render (A : Arg) (Output : ArgStringList) : ArgStringList :=
  match A.getOption.RenderStyle with
  | .RenderValuesStyle => Output ++ A.Values
  | .RenderCommaJoinedStyle => Output ++ [A.Spelling ++ commaJoin A.Values]
  | .RenderJoinedStyle => Output ++ (A.Spelling ++ A.Values.headD "") :: A.Values.tail
  | .RenderSeparateStyle => Output ++ A.Spelling :: A.Values

/-- Modelled from the spec: `ArgList::filtered(Ids...)`: the arguments whose option
matches one of `Ids`, in the order given. -/
def ArgList.filtered (Args : ArgList) (Ids : List OptID) : List Arg :=
  Args.filter (fun A => Ids.any (fun Id => A.getOption.matches Id))

/-- Modelled from the spec: `ArgList::getLastArg(Ids...)`: the loop keeps the last
argument of `filtered(Ids...)`. -/
def ArgList.getLastArg (Args : ArgList) (Ids : List OptID) : Option Arg :=
  (Args.filtered Ids).foldl (fun _ A => some A) none

/-- Modelled from the spec: `ArgList::hasArg(Ids...)`, that is
`getLastArg(Ids...) != nullptr`. -/
def ArgList.hasArg (Args : ArgList) (Ids : List OptID) : Bool :=
  (Args.getLastArg Ids).isSome

/-- Modelled from the spec: `ArgList::hasFlag(Pos, Neg, Default)`: the last of the two
options decides, `Default` when neither is given. -/
def ArgList.hasFlag (Args : ArgList) (Pos Neg : OptID) (Default : Bool) : Bool :=
  match Args.getLastArg [Pos, Neg] with
  | some A => A.getOption.matches Pos
  | none => Default

/-- Modelled from the spec: `ArgList::AddAllArgValues(Output, Id0, Id1)`: appends the
values of every matching argument, in the order given. -/
def ArgList.AddAllArgValues (Args : ArgList) (Output : ArgStringList) (Id0 Id1 : OptID) :
    ArgStringList :=
  (Args.filtered [Id0, Id1]).foldl (fun Out A => Out ++ A.getValues) Output

/-- Modelled from the spec: `ArgList::AddAllArgs(Output, Id0)`: renders every matching
argument, in the order given. -/
def ArgList.AddAllArgs (Args : ArgList) (Output : ArgStringList) (Id0 : OptID) :
    ArgStringList :=
  (Args.filtered [Id0]).foldl (fun Out A => A.render Out) Output

/-! ## Input and output descriptors, commands, compilation -/

/-- The `assert` macro of the C library, which is not part of the sources; whether the
build defines `NDEBUG` is a parameter.  When `NDEBUG` is defined the macro expands to
nothing; otherwise a false condition aborts the process, which is the result `none`. -/
def assert (NDEBUG : Bool) (cond : Bool) : Option Unit :=
  if NDEBUG || cond then some () else none

/-- Modelled from the spec: the class of a descriptor (`InputInfo::Class` of
clang/Driver/InputInfo.h, not part of the sources): the "no output expected" marker, a
concrete filename, or something else. -/
inductive InputInfo.Class where
  | Nothing
  | Filename
  | InputArg
  | Pipe
  deriving DecidableEq, Repr

/-- Modelled from the spec: an input or output descriptor (`InputInfo`, not part of
the sources): its class, the filename it carries (the storage `Data.Filename`, which
holds a filename when the class is `Filename`) and its classification (file type). -/
structure InputInfo where
  Kind : InputInfo.Class
  Filename : String
  FileType : Nat
  deriving DecidableEq, Repr

/-- The test `InputInfo::isNothing()`. -/
def InputInfo.isNothing (II : InputInfo) : Bool := II.Kind == InputInfo.Class.Nothing

/-- The test `InputInfo::isFilename()`. -/
def InputInfo.isFilename (II : InputInfo) : Bool := II.Kind == InputInfo.Class.Filename

/-- Modelled from the spec: the accessor `InputInfo::getFilename()` (clang/Driver/InputInfo.h,
not part of the sources), whose body is `assert(isFilename() && "Invalid accessor.")`
followed by `return Data.Filename`.  The result is `none` when the assertion aborts; in
a build with `NDEBUG` the stored field is returned unchecked. -/
def InputInfo.getFilename (II : InputInfo) (NDEBUG : Bool) : Option String := do
  assert NDEBUG II.isFilename
  pure II.Filename

/-- The list of input descriptors (`InputInfoList`). -/
abbrev InputInfoList := List InputInfo

/-- Modelled from the spec: the job action a command is built for (`JobAction`, not
part of the sources); only its identity matters here. -/
structure JobAction where
  id : Nat
  deriving DecidableEq, Repr

/-- A tool (`Tool`): the name and short name given to the base constructor in VE.h. -/
structure Tool where
  Name : String
  ShortName : String
  deriving DecidableEq, Repr

/-- Modelled from the spec: a command (`Command` of clang/Driver/Job.h, not part of the
sources): the action it comes from, the tool that built it, the resolved executable,
the ordered argument list and the declared inputs. -/
structure Command where
  Source : JobAction
  Creator : Tool
  Executable : String
  Arguments : ArgStringList
  Inputs : InputInfoList
  deriving DecidableEq, Repr

/-- Modelled from the spec: the owning compilation (`Compilation`, not part of the
sources), reduced to its job list. -/
structure Compilation where
  Jobs : List Command
  deriving DecidableEq, Repr

/-- Modelled from the spec: `Compilation::addCommand(C)` appends to the job list. -/
def Compilation.addCommand (C : Compilation) (Cmd : Command) : Compilation :=
  { Jobs := C.Jobs ++ [Cmd] }

/-! ## Base tool chain and support library -/

/-- Appends one string to a buffer (`ArgStringList::push_back`). -/
def push_back (L : ArgStringList) (s : String) : ArgStringList := L ++ [s]

/-- Modelled from the spec: what the descriptor inherits from the base `ToolChain` and
its driver, and the helpers of CommonArgs.cpp (none of them part of the sources): the
system root, the resource directory, the program lookup `GetProgramPath`, and the
arguments that `AddFilePathLibArgs` (the descriptor's own default library search
paths), `AddLinkerInputs` (the link inputs, in original order) and `AddRunTimeLibs`
(the runtime support libraries) append. -/
structure ToolChain where
  SysRoot : String
  ResourceDir : String
  GetProgramPath : String → String
  FilePathLibArgs : ArgList → ArgStringList
  LinkerInputs : InputInfoList → ArgList → JobAction → ArgStringList
  RunTimeLibs : ArgList → ArgStringList

/-- Modelled from the spec: `ToolChain::AddFilePathLibArgs(Args, CmdArgs)` appends the
descriptor's own default library search-path arguments. -/
def ToolChain.AddFilePathLibArgs (TC : ToolChain) (Args : ArgList) (CmdArgs : ArgStringList) :
    ArgStringList :=
  CmdArgs ++ TC.FilePathLibArgs Args

/-- Modelled from the spec: `AddLinkerInputs(TC, Inputs, Args, CmdArgs, JA)` appends
every link input, in original order. -/
def AddLinkerInputs (TC : ToolChain) (Inputs : InputInfoList) (Args : ArgList)
    (CmdArgs : ArgStringList) (JA : JobAction) : ArgStringList :=
  CmdArgs ++ TC.LinkerInputs Inputs Args JA

/-- Modelled from the spec: `AddRunTimeLibs(TC, D, CmdArgs, Args)` appends the
compiler's own runtime support libraries. -/
def AddRunTimeLibs (TC : ToolChain) (CmdArgs : ArgStringList) (Args : ArgList) :
    ArgStringList :=
  CmdArgs ++ TC.RunTimeLibs Args

/-- Modelled from the spec: `ToolChain::addSystemInclude(DriverArgs, CC1Args, Path)`
(ToolChain.cpp, not part of the sources) appends one include argument for the
directory: the cc1 flag `-internal-isystem` and then the path. -/
def addSystemInclude (CC1Args : ArgStringList) (Path : String) : ArgStringList :=
  push_back (push_back CC1Args "-internal-isystem") Path

/-- Modelled from the spec: `ToolChain::addSystemIncludes(DriverArgs, CC1Args, Paths)`
appends one include argument per directory, in that order. -/
def addSystemIncludes (CC1Args : ArgStringList) (Paths : List String) : ArgStringList :=
  Paths.foldl addSystemInclude CC1Args

/-- Modelled from the spec: `StringRef::find(Separator)` for a one-character separator
(llvm/ADT/StringRef.h, not part of the sources): the index of its first occurrence. -/
def StringRef.find (Separator : Char) : List Char → Option Nat
  | [] => none
  | c :: cs => if c = Separator then some 0 else (StringRef.find Separator cs).map (· + 1)

/-- The loop of `StringRef::split`: while the separator is found, push the slice
before it and jump behind it; then push the tail.  `MaxSplit` counts the rounds left. -/
def StringRef.splitLoop (Separator : Char) : Nat → List Char → List (List Char)
  | 0, S => [S]
  | MaxSplit + 1, S =>
    match StringRef.find Separator S with
    | none => [S]
    | some Idx => S.take Idx :: StringRef.splitLoop Separator MaxSplit (S.drop (Idx + 1))

/-- Modelled from the spec: `StringRef(S).split(Dirs, Separator)` with the default
arguments (no limit on the number of splits, empty pieces kept): the pieces of `S`
between the occurrences of the separator, in order.  Every round of the loop consumes
a character, so `S.length + 1` rounds never run out. -/
def StringRef.split (S : String) (Separator : Char) : List String :=
  (StringRef.splitLoop Separator (S.length + 1) S.data).map String.mk

/-- Modelled from the spec: `llvm::sys::path::append(P, Component)` (llvm/Support/Path.h,
not part of the sources) for a component that is a plain name: the subdirectory
`Component` of `P`, with a separator put in between unless `P` is empty or already ends
in one. -/
def path_append (P : String) (Component : String) : String :=
  if P.isEmpty then Component
  else if P.back = '/' then P ++ Component
  else P ++ "/" ++ Component

/-! ## VE tools (VE.h, VE.cpp) -/

/-- The tool of VE.h built by `Assembler(TC) : Tool("VE::Assembler", "nas", TC)`. -/
def tools.VE.Assembler : Tool := { Name := "VE::Assembler", ShortName := "nas" }

/-- The tool of VE.h built by `Linker(TC) : Tool("VE::Linker", "nld", TC)`. -/
def tools.VE.Linker : Tool := { Name := "VE::Linker", ShortName := "nld" }

/-- The function `tools::VE::Assembler::ConstructJob` (VE.cpp, lines 28-59).  The tool chain
`TC` is the one `getToolChain()` returns; `LinkingOutput` is unused and left out, and
the claiming of arguments (`claimNoWarnArgs`) only marks them as used.  `NDEBUG` tells
whether the build compiles assertions out; the result is `none` when the assertion of
`getFilename()` aborts, at the output (line 37) or at an input (line 55). -/
def tools.VE.Assembler.ConstructJob (NDEBUG : Bool) (TC : ToolChain) (C : Compilation)
    (JA : JobAction) (Output : InputInfo) (Inputs : InputInfoList) (Args : ArgList) :
    Option Compilation := do
  let CmdArgs : ArgStringList := []
  let CmdArgs := push_back CmdArgs "-o"
  let OutputFilename ← Output.getFilename NDEBUG
  let CmdArgs := push_back CmdArgs OutputFilename
  let CmdArgs := push_back CmdArgs "-c"
  let CmdArgs := if Args.hasArg [.OPT_v] then push_back CmdArgs "-v" else CmdArgs
  let CmdArgs :=
    match Args.getLastArg [.OPT_g_Group] with
    | some A => if !A.getOption.matches .OPT_g0 then push_back CmdArgs "-g" else CmdArgs
    | none => CmdArgs
  let CmdArgs :=
    if Args.hasFlag .OPT_fverbose_asm .OPT_fno_verbose_asm false then
      push_back CmdArgs "-fverbose-asm"
    else CmdArgs
  let CmdArgs := Args.AddAllArgValues CmdArgs .OPT_Wa_COMMA .OPT_Xassembler
  let CmdArgs ← Inputs.foldlM
    (fun Cmd II => do
      let InputFilename ← II.getFilename NDEBUG
      pure (push_back Cmd InputFilename))
    CmdArgs
  let Exec := TC.GetProgramPath "ncc"
  pure (C.addCommand
    { Source := JA, Creator := tools.VE.Assembler, Executable := Exec,
      Arguments := CmdArgs, Inputs := Inputs })

/-- The function `tools::VE::Linker::ConstructJob` (VE.cpp, lines 61-104).  `NDEBUG` tells
whether the build compiles assertions out; the result is `none` when the assertion on
the output descriptor aborts.  The accessor `getFilename()` is called under
`isFilename()` only, where its own assertion holds. -/
def tools.VE.Linker.ConstructJob (NDEBUG : Bool) (TC : ToolChain) (C : Compilation)
    (JA : JobAction) (Output : InputInfo) (Inputs : InputInfoList) (Args : ArgList) :
    Option Compilation := do
  let CmdArgs : ArgStringList := []
  let IsStatic := Args.hasArg [.OPT_static]
  let IsShared := Args.hasArg [.OPT_shared]
  let CmdArgs := if IsShared then push_back CmdArgs "-shared" else CmdArgs
  let CmdArgs := if IsStatic then push_back CmdArgs "-static" else CmdArgs
  let CmdArgs ←
    if Output.isFilename then do
      let OutputFilename ← Output.getFilename NDEBUG
      pure (push_back (push_back CmdArgs "-o") OutputFilename)
    else do
      assert NDEBUG Output.isNothing
      pure CmdArgs
  let CmdArgs := if Args.hasArg [.OPT_v] then push_back CmdArgs "-v" else CmdArgs
  let CmdArgs :=
    if Args.hasFlag .OPT_fexceptions .OPT_fno_exceptions false then
      push_back CmdArgs "-fexceptions"
    else CmdArgs
  let CmdArgs := Args.AddAllArgs CmdArgs .OPT_L
  let CmdArgs := TC.AddFilePathLibArgs Args CmdArgs
  let CmdArgs := AddLinkerInputs TC Inputs Args CmdArgs JA
  let CmdArgs :=
    if !Args.hasArg [.OPT_nostdlib] then
      if !Args.hasArg [.OPT_nodefaultlibs] then AddRunTimeLibs TC CmdArgs Args
      else CmdArgs
    else CmdArgs
  let Exec := TC.GetProgramPath "ncc"
  pure (C.addCommand
    { Source := JA, Creator := tools.VE.Linker, Executable := Exec,
      Arguments := CmdArgs, Inputs := Inputs })

/-! ## VE tool chain (VE.cpp) -/

/-- The function `VEToolChain::AddClangSystemIncludeArgs` (VE.cpp, lines 132-163).  `getenv`
is the process environment and `EnvPathSeparator` the path-list separator of the
platform (`llvm::sys::EnvPathSeparator`); the result is the new content of `CC1Args`. -/
def VEToolChain.AddClangSystemIncludeArgs (TC : ToolChain) (getenv : String → Option String)
    (EnvPathSeparator : Char) (DriverArgs : ArgList) (CC1Args : ArgStringList) :
    ArgStringList :=
  if DriverArgs.hasArg [.OPT_nostdinc] then CC1Args
  else if DriverArgs.hasArg [.OPT_nobuiltininc] && DriverArgs.hasArg [.OPT_nostdlibinc] then
    CC1Args
  else
    let CC1Args :=
      if !DriverArgs.hasArg [.OPT_nostdlibinc] then
        match getenv "NCC_C_INCLUDE_PATH" with
        | some cl_include_dir =>
          let Dirs := StringRef.split cl_include_dir EnvPathSeparator
          addSystemIncludes CC1Args Dirs
        | none => addSystemInclude CC1Args (TC.SysRoot ++ "/opt/nec/ve/musl/include")
      else CC1Args
    if !DriverArgs.hasArg [.OPT_nobuiltininc] then
      let P := path_append TC.ResourceDir "include"
      addSystemInclude CC1Args P
    else CC1Args

/-- Modelled from the spec: the offload kind of an action (`Action::OffloadKind`, not
part of the sources). -/
inductive Action.OffloadKind where
  | OFK_None
  | OFK_Host
  | OFK_Cuda
  | OFK_OpenMP
  | OFK_HIP
  deriving DecidableEq, Repr

/-- Modelled from the spec: the runtime-library flavours (`ToolChain::RuntimeLibType`,
not part of the sources): the compiler-provided one and the platform one. -/
inductive RuntimeLibType where
  | RLT_CompilerRT
  | RLT_Libgcc
  deriving DecidableEq, Repr

/-- The function `VEToolChain::isPICDefault` (VE.cpp, line 122). -/
def VEToolChain.isPICDefault (_TC : ToolChain) : Bool := false

/-- The function `VEToolChain::isPIEDefault` (VE.cpp, line 124). -/
def VEToolChain.isPIEDefault (_TC : ToolChain) : Bool := false

/-- The function `VEToolChain::isPICDefaultForced` (VE.cpp, line 126). -/
def VEToolChain.isPICDefaultForced (_TC : ToolChain) : Bool := false

/-- The function `VEToolChain::SupportsProfiling` (VE.cpp, line 128). -/
def VEToolChain.SupportsProfiling (_TC : ToolChain) : Bool := false

/-- The function `VEToolChain::hasBlocksRuntime` (VE.cpp, line 130). -/
def VEToolChain.hasBlocksRuntime (_TC : ToolChain) : Bool := false

/-- The function `VEToolChain::GetDefaultRuntimeLibType` (VE.h, lines 78-80). -/
def VEToolChain.GetDefaultRuntimeLibType (_TC : ToolChain) : RuntimeLibType :=
  RuntimeLibType.RLT_CompilerRT

/-- The function `VEToolChain::getDefaultLinker` (VE.h, line 82). -/
def VEToolChain.getDefaultLinker (_TC : ToolChain) : String := "nld"

/-- The function `VEToolChain::addClangTargetOptions` (VE.cpp, lines 165-170). -/
def VEToolChain.addClangTargetOptions (_DriverArgs : ArgList) (CC1Args : ArgStringList)
    (_DeviceOffloadKind : Action.OffloadKind) : ArgStringList :=
  let CC1Args := push_back CC1Args "-nostdsysteminc"
  push_back CC1Args "-fuse-init-array"

/-- The function `VEToolChain::AddClangCXXStdlibIncludeArgs` (VE.cpp, lines 172-198); the
branches under `#if 0` are not compiled. -/
def VEToolChain.AddClangCXXStdlibIncludeArgs (getenv : String → Option String)
    (EnvPathSeparator : Char) (DriverArgs : ArgList) (CC1Args : ArgStringList) :
    ArgStringList :=
  if DriverArgs.hasArg [.OPT_nostdinc] || DriverArgs.hasArg [.OPT_nostdlibinc]
      || DriverArgs.hasArg [.OPT_nostdincxx] then CC1Args
  else
    match getenv "NCC_CPLUS_INCLUDE_PATH" with
    | some cl_include_dir =>
      let Dirs := StringRef.split cl_include_dir EnvPathSeparator
      addSystemIncludes CC1Args Dirs
    | none => CC1Args

/-- The function `VEToolChain::AddCXXStdlibLibArgs` (VE.cpp, lines 200-203): no library
argument is output. -/
def VEToolChain.AddCXXStdlibLibArgs (_Args : ArgList) (CmdArgs : ArgStringList) :
    ArgStringList :=
  CmdArgs

/-- The variant of `VEToolChain::AddClangSystemIncludeArgs` that claim C19 compares with:
the body of lines 132-163 with the check of lines 137-139 (-nobuiltininc and
-nostdlibinc both set, then return) removed and nothing else changed. -/
def VEToolChain.AddClangSystemIncludeArgs_without_step2 (TC : ToolChain)
    (getenv : String → Option String) (EnvPathSeparator : Char) (DriverArgs : ArgList)
    (CC1Args : ArgStringList) : ArgStringList :=
  if DriverArgs.hasArg [.OPT_nostdinc] then CC1Args
  else
    let CC1Args :=
      if !DriverArgs.hasArg [.OPT_nostdlibinc] then
        match getenv "NCC_C_INCLUDE_PATH" with
        | some cl_include_dir =>
          let Dirs := StringRef.split cl_include_dir EnvPathSeparator
          addSystemIncludes CC1Args Dirs
        | none => addSystemInclude CC1Args (TC.SysRoot ++ "/opt/nec/ve/musl/include")
      else CC1Args
    if !DriverArgs.hasArg [.OPT_nobuiltininc] then
      let P := path_append TC.ResourceDir "include"
      addSystemInclude CC1Args P
    else CC1Args

/-! ## Concrete inputs

A tool chain, an environment and a few arguments at which the definitions above are
evaluated. -/

/-- A tool chain with an empty system root: programs are found in the native-tools
directory, there is one default library directory, the link inputs are the filenames of
the inputs that are filenames and there is one runtime library. -/
def Sample.TC : ToolChain where
  SysRoot := ""
  ResourceDir := "/usr/lib/clang/8.0.0"
  GetProgramPath := fun Name => "/opt/nec/ve/bin/" ++ Name
  FilePathLibArgs := fun _ => ["-L/opt/nec/ve/lib"]
  LinkerInputs := fun Inputs _ _ =>
    (Inputs.filter InputInfo.isFilename).map (fun II => II.Filename)
  RunTimeLibs := fun _ => ["/usr/lib/clang/8.0.0/lib/linux/libclang_rt.builtins-ve.a"]

/-- An environment in which `NCC_C_INCLUDE_PATH` is `/a:/b` and nothing else is set. -/
def Sample.getenv (Name : String) : Option String :=
  if Name = "NCC_C_INCLUDE_PATH" then some "/a:/b" else none

/-- An argument that is a plain flag outside every group, such as `-shared`. -/
def Sample.flag (ID : OptID) (Spelling : String) : Arg :=
  { Opt := { ID := ID, Groups := [], RenderStyle := .RenderValuesStyle },
    Spelling := Spelling, Values := [] }

/-- The pass-through argument `-Wa,-g`: a comma-joined option with the one value `-g`. -/
def Sample.Wa_g : Arg :=
  { Opt := { ID := .OPT_Wa_COMMA, Groups := [], RenderStyle := .RenderCommaJoinedStyle },
    Spelling := "-Wa,", Values := ["-g"] }

/-- The descriptor of the file `Name`. -/
def Sample.file (Name : String) : InputInfo :=
  { Kind := .Filename, Filename := Name, FileType := 0 }

/-- An environment in which no variable is set. -/
def Sample.noenv (_Name : String) : Option String := none

/-- An environment in which `NCC_C_INCLUDE_PATH` names the `include` subdirectory of the
resource directory of `Sample.TC` and nothing else is set. -/
def Sample.getenvResource (Name : String) : Option String :=
  if Name = "NCC_C_INCLUDE_PATH" then some "/usr/lib/clang/8.0.0/include" else none

/-- An environment in which `NCC_C_INCLUDE_PATH` and `NCC_CPLUS_INCLUDE_PATH` are both
`/x::/y`, a list with an empty piece in the middle. -/
def Sample.getenvEmptyPiece (Name : String) : Option String :=
  if Name = "NCC_C_INCLUDE_PATH" ∨ Name = "NCC_CPLUS_INCLUDE_PATH" then some "/x::/y" else none

/-! ## Lemmas on the option set and on buffers -/

theorem foldl_keep_last {α : Type} (L : List α) (o : Option α) :
    L.foldl (fun _ A => some A) o = L.getLast?.or o := by
  induction L using List.reverseRecOn with
  | nil => simp
  | append_singleton L a _ => simp [List.foldl_append]

theorem ArgList.getLastArg_eq (Args : ArgList) (Ids : List OptID) :
    Args.getLastArg Ids =
      (Args.filter (fun A => Ids.any (fun Id => A.getOption.matches Id))).getLast? := by
  unfold ArgList.getLastArg ArgList.filtered
  rw [foldl_keep_last]
  simp

theorem ArgList.getLastArg_single (Args : ArgList) (Id : OptID) :
    Args.getLastArg [Id] = (Args.filter (fun A => A.getOption.matches Id)).getLast? := by
  rw [ArgList.getLastArg_eq]
  simp

theorem ArgList.hasArg_single (Args : ArgList) (Id : OptID) :
    Args.hasArg [Id] = Args.any (fun A => A.getOption.matches Id) := by
  unfold ArgList.hasArg
  rw [ArgList.getLastArg_single, Bool.eq_iff_iff, List.getLast?_isSome]
  simp [List.filter_eq_nil_iff]

theorem foldl_append_flatMap {α β : Type} (f : α → List β) (L : List α) (Out : List β) :
    L.foldl (fun Out A => Out ++ f A) Out = Out ++ L.flatMap f := by
  induction L generalizing Out with
  | nil => simp
  | cons a L ih => simp [ih]

theorem ArgList.AddAllArgValues_eq (Args : ArgList) (Output : ArgStringList) (Id0 Id1 : OptID) :
    Args.AddAllArgValues Output Id0 Id1 =
      Output ++ (Args.filter
        (fun A => A.getOption.matches Id0 || A.getOption.matches Id1)).flatMap Arg.getValues := by
  unfold ArgList.AddAllArgValues ArgList.filtered
  rw [foldl_append_flatMap]
  simp

theorem InputInfo.getFilename_eq (II : InputInfo) (NDEBUG : Bool) :
    II.getFilename NDEBUG = if NDEBUG || II.isFilename then some II.Filename else none := by
  unfold InputInfo.getFilename assert
  cases NDEBUG <;> cases II.isFilename <;> rfl

theorem foldlM_filenames (NDEBUG : Bool) (f : ArgStringList → InputInfo → Option ArgStringList)
    (hf : ∀ Cmd II, f Cmd II
      = if NDEBUG || II.isFilename then some (Cmd ++ [II.Filename]) else none)
    (Inputs : InputInfoList) (Out : ArgStringList) :
    Inputs.foldlM f Out
      = if NDEBUG || Inputs.all InputInfo.isFilename then
          some (Out ++ Inputs.map (fun II => II.Filename))
        else none := by
  induction Inputs generalizing Out with
  | nil => simp
  | cons II Rest ih =>
    rw [List.foldlM_cons, hf]
    cases NDEBUG <;> cases hII : II.isFilename <;> simp [ih, hII]

theorem foldlM_push_back_getFilename (NDEBUG : Bool) (Inputs : InputInfoList)
    (Out : ArgStringList) :
    Inputs.foldlM
        (fun Cmd II => do
          let InputFilename ← II.getFilename NDEBUG
          pure (push_back Cmd InputFilename))
        Out
      = if NDEBUG || Inputs.all InputInfo.isFilename then
          some (Out ++ Inputs.map (fun II => II.Filename))
        else none := by
  apply foldlM_filenames
  intro Cmd II
  simp only [InputInfo.getFilename_eq, push_back]
  cases NDEBUG <;> cases II.isFilename <;> rfl

/-- The result of the assembler job in closed form: the construction aborts exactly when
assertions are compiled in and the output or an input is not a filename; otherwise one
command with the listed arguments is appended. -/
theorem Assembler_ConstructJob_closed_form (NDEBUG : Bool) (TC : ToolChain) (C : Compilation)
    (JA : JobAction) (Output : InputInfo) (Inputs : InputInfoList) (Args : ArgList) :
    tools.VE.Assembler.ConstructJob NDEBUG TC C JA Output Inputs Args =
      if NDEBUG || (Output.isFilename && Inputs.all InputInfo.isFilename) then
        some (C.addCommand
          { Source := JA, Creator := tools.VE.Assembler, Executable := TC.GetProgramPath "ncc",
            Arguments :=
              ["-o", Output.Filename, "-c"]
                ++ (if Args.any (fun A => A.getOption.matches .OPT_v) then ["-v"] else [])
                ++ (match (Args.filter (fun A => A.getOption.matches .OPT_g_Group)).getLast? with
                    | some A => if A.getOption.matches .OPT_g0 then [] else ["-g"]
                    | none => [])
                ++ (match (Args.filter (fun A => A.getOption.matches .OPT_fverbose_asm
                              || A.getOption.matches .OPT_fno_verbose_asm)).getLast? with
                    | some A =>
                      if A.getOption.matches .OPT_fverbose_asm then ["-fverbose-asm"] else []
                    | none => [])
                ++ (Args.filter (fun A => A.getOption.matches .OPT_Wa_COMMA
                              || A.getOption.matches .OPT_Xassembler)).flatMap Arg.getValues
                ++ Inputs.map (fun II => II.Filename),
            Inputs := Inputs })
      else none := by
  unfold tools.VE.Assembler.ConstructJob ArgList.hasFlag
  simp only [foldlM_push_back_getFilename]
  simp only [InputInfo.getFilename_eq, ArgList.hasArg_single,
    ArgList.getLastArg_single, ArgList.getLastArg_eq, ArgList.AddAllArgValues_eq]
  simp only [push_back, List.any_cons, List.any_nil, Bool.or_false]
  generalize (Args.filter (fun A => A.getOption.matches .OPT_g_Group)).getLast? = og
  generalize (Args.filter (fun A => A.getOption.matches .OPT_fverbose_asm
      || A.getOption.matches .OPT_fno_verbose_asm)).getLast? = ov
  generalize Args.any (fun A => A.getOption.matches .OPT_v) = bv
  generalize Inputs.all InputInfo.isFilename = ball
  generalize Output.isFilename = bf
  cases NDEBUG <;> cases bf <;> cases ball <;>
    simp only [bind, Option.bind, pure, Bool.or_self, Bool.or_true, Bool.or_false,
      Bool.false_or, Bool.true_or, Bool.and_self, Bool.and_true, Bool.and_false,
      Bool.false_and, Bool.true_and, if_true, if_false, Bool.false_eq_true] <;>
    (congr 3
     cases bv <;> cases og <;> cases ov <;> simp <;> (repeat' split) <;> simp_all)

theorem ite_append_right (b : Bool) (X Y : ArgStringList) :
    (if b = true then X ++ Y else X) = X ++ (if b = true then Y else []) := by
  cases b <;> simp

theorem Arg.render_eq (A : Arg) (Output : ArgStringList) :
    A.render Output = Output ++ A.render [] := by
  unfold Arg.render
  cases A.getOption.RenderStyle <;> simp

theorem foldl_render_flatMap (L : List Arg) (Out : ArgStringList) :
    L.foldl (fun Out A => A.render Out) Out = Out ++ L.flatMap (fun A => A.render []) := by
  induction L generalizing Out with
  | nil => simp
  | cons a L ih =>
    rw [List.foldl_cons, ih, Arg.render_eq]
    simp

theorem ArgList.AddAllArgs_eq (Args : ArgList) (Output : ArgStringList) (Id0 : OptID) :
    Args.AddAllArgs Output Id0 =
      Output ++ (Args.filter (fun A => A.getOption.matches Id0)).flatMap
        (fun A => A.render []) := by
  unfold ArgList.AddAllArgs ArgList.filtered
  rw [foldl_render_flatMap]
  simp

/-- The result of the linker job in closed form: the construction aborts exactly when
assertions are compiled in and the output is neither a filename nor the "nothing"
marker; otherwise one command with the listed arguments is appended. -/
theorem Linker_ConstructJob_closed_form (NDEBUG : Bool) (TC : ToolChain) (C : Compilation)
    (JA : JobAction) (Output : InputInfo) (Inputs : InputInfoList) (Args : ArgList) :
    tools.VE.Linker.ConstructJob NDEBUG TC C JA Output Inputs Args =
      if Output.isFilename || (NDEBUG || Output.isNothing) then
        some (C.addCommand
          { Source := JA, Creator := tools.VE.Linker, Executable := TC.GetProgramPath "ncc",
            Arguments :=
              (if Args.any (fun A => A.getOption.matches .OPT_shared) then ["-shared"] else [])
                ++ (if Args.any (fun A => A.getOption.matches .OPT_static) then ["-static"] else [])
                ++ (if Output.isFilename then ["-o", Output.Filename] else [])
                ++ (if Args.any (fun A => A.getOption.matches .OPT_v) then ["-v"] else [])
                ++ (match (Args.filter (fun A => A.getOption.matches .OPT_fexceptions
                              || A.getOption.matches .OPT_fno_exceptions)).getLast? with
                    | some A => if A.getOption.matches .OPT_fexceptions then ["-fexceptions"] else []
                    | none => [])
                ++ (Args.filter (fun A => A.getOption.matches .OPT_L)).flatMap
                      (fun A => A.render [])
                ++ TC.FilePathLibArgs Args
                ++ TC.LinkerInputs Inputs Args JA
                ++ (if Args.any (fun A => A.getOption.matches .OPT_nostdlib)
                        || Args.any (fun A => A.getOption.matches .OPT_nodefaultlibs) then []
                    else TC.RunTimeLibs Args),
            Inputs := Inputs })
      else none := by
  unfold tools.VE.Linker.ConstructJob ArgList.hasFlag
  simp only [InputInfo.getFilename_eq, ArgList.hasArg_single, ArgList.getLastArg_eq,
    ArgList.AddAllArgs_eq, ToolChain.AddFilePathLibArgs, AddLinkerInputs, AddRunTimeLibs,
    assert]
  simp only [push_back, List.any_cons, List.any_nil, Bool.or_false]
  generalize (Args.filter (fun A => A.getOption.matches .OPT_fexceptions
      || A.getOption.matches .OPT_fno_exceptions)).getLast? = oe
  generalize Args.any (fun A => A.getOption.matches .OPT_v) = bv
  generalize Args.any (fun A => A.getOption.matches .OPT_shared) = bsh
  generalize Args.any (fun A => A.getOption.matches .OPT_static) = bst
  generalize Args.any (fun A => A.getOption.matches .OPT_nostdlib) = b1
  generalize Args.any (fun A => A.getOption.matches .OPT_nodefaultlibs) = b2
  generalize Output.isFilename = bf
  generalize Output.isNothing = bn
  cases bf <;> cases NDEBUG <;> cases bn <;>
    simp only [bind, Option.bind, pure, Bool.or_self, Bool.or_true, Bool.or_false,
      Bool.false_or, Bool.true_or, if_true, if_false, Bool.false_eq_true] <;>
    (congr 3
     cases oe <;> cases b1 <;> cases b2 <;> simp [ite_append_right] <;>
     split <;> simp [ite_append_right])

/-! ## Assembler adapter -/

/-- The assembler job at descriptors that are not filenames, in a build with assertions
compiled in: the assertion of `getFilename()` aborts for an output that is the "nothing"
marker and for an input that is an input argument; with filenames the job is built. -/
theorem Assembler_ConstructJob_abort_cases :
    tools.VE.Assembler.ConstructJob false Sample.TC { Jobs := [] } { id := 0 }
        { Kind := .Nothing, Filename := "", FileType := 0 } [Sample.file "a.s"] [] = none
    ∧ tools.VE.Assembler.ConstructJob false Sample.TC { Jobs := [] } { id := 0 }
        (Sample.file "a.o") [{ Kind := .InputArg, Filename := "", FileType := 0 }] [] = none
    ∧ (tools.VE.Assembler.ConstructJob false Sample.TC { Jobs := [] } { id := 0 }
        (Sample.file "a.o") [Sample.file "a.s"] []).map
          (fun C => C.Jobs.map Command.Arguments) = some [["-o", "a.o", "-c", "a.s"]] := by
  decide

/-- C1: for every option set, every concrete output filename `f` and every input list,
the argument list of the command that `tools::VE::Assembler::ConstructJob` appends to the
job list has "-o" as its first element, `f` as its second and "-c" as its third.  The
command is built unless an input is not a filename in a build with assertions compiled
in: then the assertion of `getFilename()` aborts and no list is built. -/
theorem Assembler_ConstructJob_starts_with_output (NDEBUG : Bool) (TC : ToolChain)
    (C : Compilation) (JA : JobAction) (f : String) (FileType : Nat)
    (Inputs : InputInfoList) (Args : ArgList) :
    ∃ Cmd rest,
      tools.VE.Assembler.ConstructJob NDEBUG TC C JA
          { Kind := .Filename, Filename := f, FileType := FileType } Inputs Args
        = (if NDEBUG || Inputs.all InputInfo.isFilename then some (C.addCommand Cmd)
           else none)
      ∧ Cmd.Arguments = "-o" :: f :: "-c" :: rest
      ∧ Cmd.Arguments[0]? = some "-o" ∧ Cmd.Arguments[1]? = some f
      ∧ Cmd.Arguments[2]? = some "-c" := by
  have h := Assembler_ConstructJob_closed_form NDEBUG TC C JA
    { Kind := .Filename, Filename := f, FileType := FileType } Inputs Args
  simp only [InputInfo.isFilename, beq_self_eq_true, Bool.true_and] at h
  refine ⟨_,
    (if Args.any (fun A => A.getOption.matches .OPT_v) then ["-v"] else [])
      ++ (match (Args.filter (fun A => A.getOption.matches .OPT_g_Group)).getLast? with
          | some A => if A.getOption.matches .OPT_g0 then [] else ["-g"]
          | none => [])
      ++ (match (Args.filter (fun A => A.getOption.matches .OPT_fverbose_asm
                    || A.getOption.matches .OPT_fno_verbose_asm)).getLast? with
          | some A => if A.getOption.matches .OPT_fverbose_asm then ["-fverbose-asm"] else []
          | none => [])
      ++ (Args.filter (fun A => A.getOption.matches .OPT_Wa_COMMA
                    || A.getOption.matches .OPT_Xassembler)).flatMap Arg.getValues
      ++ Inputs.map (fun II => II.Filename),
    h, ?_, ?_, ?_, ?_⟩
  all_goals simp

/-- C2, as the code has it, for a job that is built (every input a filename, or
assertions compiled out): "-g" is an element of the argument list built by
`tools::VE::Assembler::ConstructJob` if and only if the last debug-info-group option of the
option set exists and is not -g0, or the string "-g" is itself the output filename, a
value of a -Wa, / -Xassembler pass-through option, or the filename of an input.  The
adapter's own "-g" sits right after "-o", `f`, "-c" and the optional "-v", and is there
exactly when the last debug-info-group option exists and is not -g0. -/
theorem Assembler_ConstructJob_debug_flag (NDEBUG : Bool) (TC : ToolChain) (C : Compilation)
    (JA : JobAction) (f : String) (FileType : Nat) (Inputs : InputInfoList) (Args : ArgList) :
    ∃ Cmd post,
      tools.VE.Assembler.ConstructJob NDEBUG TC C JA
          { Kind := .Filename, Filename := f, FileType := FileType } Inputs Args
        = (if NDEBUG || Inputs.all InputInfo.isFilename then some (C.addCommand Cmd)
           else none)
      ∧ ("-g" ∈ Cmd.Arguments ↔
          (∃ A, (Args.filter (fun A => A.getOption.matches .OPT_g_Group)).getLast? = some A
              ∧ A.getOption.matches .OPT_g0 = false)
          ∨ f = "-g"
          ∨ (∃ A ∈ Args, (A.getOption.matches .OPT_Wa_COMMA = true
                ∨ A.getOption.matches .OPT_Xassembler = true) ∧ "-g" ∈ A.getValues)
          ∨ (∃ II ∈ Inputs, II.Filename = "-g"))
      ∧ Cmd.Arguments =
          ["-o", f, "-c"]
            ++ (if Args.any (fun A => A.getOption.matches .OPT_v) then ["-v"] else [])
            ++ (match (Args.filter (fun A => A.getOption.matches .OPT_g_Group)).getLast? with
                | some A => if A.getOption.matches .OPT_g0 then [] else ["-g"]
                | none => [])
            ++ post
      ∧ (post = (match (Args.filter (fun A => A.getOption.matches .OPT_fverbose_asm
                          || A.getOption.matches .OPT_fno_verbose_asm)).getLast? with
                | some A => if A.getOption.matches .OPT_fverbose_asm then ["-fverbose-asm"] else []
                | none => [])
            ++ (Args.filter (fun A => A.getOption.matches .OPT_Wa_COMMA
                          || A.getOption.matches .OPT_Xassembler)).flatMap Arg.getValues
            ++ Inputs.map (fun II => II.Filename)) := by
  have h := Assembler_ConstructJob_closed_form NDEBUG TC C JA
    { Kind := .Filename, Filename := f, FileType := FileType } Inputs Args
  simp only [InputInfo.isFilename, beq_self_eq_true, Bool.true_and] at h
  refine ⟨_, _, h, ?_, ?_, rfl⟩
  swap
  · simp only [List.append_assoc]
  generalize (Args.filter (fun A => A.getOption.matches .OPT_g_Group)).getLast? = og
  generalize (Args.filter (fun A => A.getOption.matches .OPT_fverbose_asm
      || A.getOption.matches .OPT_fno_verbose_asm)).getLast? = ov
  have hv : "-g" ∉ (if Args.any (fun A => A.getOption.matches .OPT_v) then ["-v"] else []) := by
    split <;> simp
  have ha : "-g" ∉ (match ov with
      | some A => if A.getOption.matches .OPT_fverbose_asm then ["-fverbose-asm"] else []
      | none => []) := by
    cases ov with
    | none => simp
    | some A => simp only []; split <;> simp
  have hg : "-g" ∈ (match og with
      | some A => if A.getOption.matches .OPT_g0 then [] else ["-g"]
      | none => []) ↔ ∃ A, og = some A ∧ A.getOption.matches .OPT_g0 = false := by
    cases og with
    | none => simp
    | some A => cases h : A.getOption.matches .OPT_g0 <;> simp [h]
  simp only [List.mem_append, hv, ha, hg, List.mem_flatMap, List.mem_filter, List.mem_map,
    Bool.or_eq_true, false_or, or_false]
  constructor
  · rintro ((((h | h) | h) | h))
    · simp at h; exact Or.inr (Or.inl h.symm)
    · exact Or.inl h
    · obtain ⟨A, ⟨hA, hm⟩, hval⟩ := h
      exact Or.inr (Or.inr (Or.inl ⟨A, hA, hm, hval⟩))
    · exact Or.inr (Or.inr (Or.inr h))
  · rintro (h | h | h | h)
    · exact Or.inl (Or.inl (Or.inr h))
    · exact Or.inl (Or.inl (Or.inl (by simp [h])))
    · obtain ⟨A, hA, hm, hval⟩ := h
      exact Or.inl (Or.inr ⟨A, ⟨hA, hm⟩, hval⟩)
    · exact Or.inr h

/-- C2 fails as stated: with `-Wa,-g` as the only option no debug-info-group option is in
the option set, and yet "-g" is an element of the argument list. -/
theorem Assembler_ConstructJob_debug_flag_counterexample :
    (tools.VE.Assembler.ConstructJob false Sample.TC { Jobs := [] } { id := 0 }
        (Sample.file "a.o") [Sample.file "a.s"] [Sample.Wa_g]).map
          (fun C => C.Jobs.map Command.Arguments)
      = some [["-o", "a.o", "-c", "-g", "a.s"]]
    ∧ "-g" ∈ ["-o", "a.o", "-c", "-g", "a.s"]
    ∧ ([Sample.Wa_g].filter (fun A => A.getOption.matches .OPT_g_Group)).getLast? = none := by
  decide

/-- C3: for every option set, output filename `f` and input list, the argument list built
by `tools::VE::Assembler::ConstructJob` is exactly "-o", `f`, "-c", then "-v" if verbose is
requested, then "-g" if the last debug-group option exists and is not -g0, then
"-fverbose-asm" if the last of -fverbose-asm / -fno-verbose-asm is -fverbose-asm, then
the values of all -Wa, / -Xassembler options in the order given, then the filename of
each input in the order given; the input filenames are the final elements.  The list is
built unless an input is not a filename in a build with assertions compiled in: then the
assertion of `getFilename()` aborts. -/
theorem Assembler_ConstructJob_arguments (NDEBUG : Bool) (TC : ToolChain) (C : Compilation)
    (JA : JobAction) (f : String) (FileType : Nat) (Inputs : InputInfoList) (Args : ArgList) :
    ∃ Cmd,
      tools.VE.Assembler.ConstructJob NDEBUG TC C JA
          { Kind := .Filename, Filename := f, FileType := FileType } Inputs Args
        = (if NDEBUG || Inputs.all InputInfo.isFilename then some (C.addCommand Cmd)
           else none)
      ∧ Cmd.Arguments =
          ["-o", f, "-c"]
            ++ (if Args.any (fun A => A.getOption.matches .OPT_v) then ["-v"] else [])
            ++ (match (Args.filter (fun A => A.getOption.matches .OPT_g_Group)).getLast? with
                | some A => if A.getOption.matches .OPT_g0 then [] else ["-g"]
                | none => [])
            ++ (match (Args.filter (fun A => A.getOption.matches .OPT_fverbose_asm
                          || A.getOption.matches .OPT_fno_verbose_asm)).getLast? with
                | some A => if A.getOption.matches .OPT_fverbose_asm then ["-fverbose-asm"] else []
                | none => [])
            ++ (Args.filter (fun A => A.getOption.matches .OPT_Wa_COMMA
                          || A.getOption.matches .OPT_Xassembler)).flatMap Arg.getValues
            ++ Inputs.map (fun II => II.Filename)
      ∧ Inputs.map (fun II => II.Filename) <:+ Cmd.Arguments
      ∧ (Inputs.all InputInfo.isFilename = true →
          ∀ II ∈ Inputs, II.getFilename NDEBUG = some II.Filename) := by
  have h := Assembler_ConstructJob_closed_form NDEBUG TC C JA
    { Kind := .Filename, Filename := f, FileType := FileType } Inputs Args
  simp only [InputInfo.isFilename, beq_self_eq_true, Bool.true_and] at h
  refine ⟨_, h, rfl, List.suffix_append _ _, ?_⟩
  intro hall II hII
  rw [InputInfo.getFilename_eq, (List.all_eq_true.mp hall) II hII]
  simp

/-! ## Linker adapter -/

/-- C4: when the option set requests both shared and static, the argument list built by
`tools::VE::Linker::ConstructJob` has "-shared" at index 0 and "-static" at index 1, before
every other argument; the job is built unless the assertion on the output aborts. -/
theorem Linker_ConstructJob_shared_before_static (NDEBUG : Bool) (TC : ToolChain)
    (C : Compilation) (JA : JobAction) (Output : InputInfo) (Inputs : InputInfoList)
    (Args : ArgList)
    (hShared : ∃ A ∈ Args, A.getOption.matches .OPT_shared = true)
    (hStatic : ∃ A ∈ Args, A.getOption.matches .OPT_static = true) :
    ∃ Cmd rest,
      tools.VE.Linker.ConstructJob NDEBUG TC C JA Output Inputs Args
        = (if Output.isFilename || (NDEBUG || Output.isNothing) then some (C.addCommand Cmd)
           else none)
      ∧ Cmd.Arguments = "-shared" :: "-static" :: rest
      ∧ Cmd.Arguments[0]? = some "-shared" ∧ Cmd.Arguments[1]? = some "-static"
      ∧ "-shared" ∈ Cmd.Arguments ∧ "-static" ∈ Cmd.Arguments := by
  have hsh : Args.any (fun A => A.getOption.matches .OPT_shared) = true :=
    List.any_eq_true.mpr hShared
  have hst : Args.any (fun A => A.getOption.matches .OPT_static) = true :=
    List.any_eq_true.mpr hStatic
  refine ⟨_,
    (if Output.isFilename then ["-o", Output.Filename] else [])
      ++ (if Args.any (fun A => A.getOption.matches .OPT_v) then ["-v"] else [])
      ++ (match (Args.filter (fun A => A.getOption.matches .OPT_fexceptions
                    || A.getOption.matches .OPT_fno_exceptions)).getLast? with
          | some A => if A.getOption.matches .OPT_fexceptions then ["-fexceptions"] else []
          | none => [])
      ++ (Args.filter (fun A => A.getOption.matches .OPT_L)).flatMap (fun A => A.render [])
      ++ TC.FilePathLibArgs Args
      ++ TC.LinkerInputs Inputs Args JA
      ++ (if Args.any (fun A => A.getOption.matches .OPT_nostdlib)
              || Args.any (fun A => A.getOption.matches .OPT_nodefaultlibs) then []
          else TC.RunTimeLibs Args),
    Linker_ConstructJob_closed_form NDEBUG TC C JA Output Inputs Args, ?_, ?_, ?_, ?_, ?_⟩
  all_goals simp [hsh, hst]

/-- The property C4 at a concrete link job with `-static -shared`. -/
theorem Linker_ConstructJob_shared_before_static_witness :
    ((∃ A ∈ [Sample.flag .OPT_static "-static", Sample.flag .OPT_shared "-shared"],
          A.getOption.matches .OPT_shared = true)
      ∧ (∃ A ∈ [Sample.flag .OPT_static "-static", Sample.flag .OPT_shared "-shared"],
          A.getOption.matches .OPT_static = true))
    ∧ ∃ Cmd rest,
      tools.VE.Linker.ConstructJob false Sample.TC { Jobs := [] } { id := 0 }
          (Sample.file "a.out") [Sample.file "a.o"]
          [Sample.flag .OPT_static "-static", Sample.flag .OPT_shared "-shared"]
        = (if (Sample.file "a.out").isFilename || (false || (Sample.file "a.out").isNothing)
           then some (Compilation.addCommand { Jobs := [] } Cmd) else none)
      ∧ Cmd.Arguments = "-shared" :: "-static" :: rest
      ∧ Cmd.Arguments[0]? = some "-shared" ∧ Cmd.Arguments[1]? = some "-static"
      ∧ "-shared" ∈ Cmd.Arguments ∧ "-static" ∈ Cmd.Arguments :=
  ⟨⟨by decide, by decide⟩,
    Linker_ConstructJob_shared_before_static false Sample.TC { Jobs := [] } { id := 0 }
      (Sample.file "a.out") [Sample.file "a.o"]
      [Sample.flag .OPT_static "-static", Sample.flag .OPT_shared "-shared"]
      (by decide) (by decide)⟩

/-- C5, as the code has it: for an output descriptor that is neither a concrete filename
nor the "nothing" marker, `tools::VE::Linker::ConstructJob` aborts, appending no command, in
a build with assertions compiled in; in a build with `NDEBUG` the assertion is compiled
out and the job is built as for the "nothing" marker, with no output argument. -/
theorem Linker_ConstructJob_invalid_output (TC : ToolChain) (C : Compilation)
    (JA : JobAction) (Output : InputInfo) (Inputs : InputInfoList) (Args : ArgList)
    (hFilename : Output.isFilename = false) (hNothing : Output.isNothing = false) :
    tools.VE.Linker.ConstructJob false TC C JA Output Inputs Args = none
    ∧ tools.VE.Linker.ConstructJob true TC C JA Output Inputs Args
        = tools.VE.Linker.ConstructJob true TC C JA
            { Kind := .Nothing, Filename := Output.Filename, FileType := Output.FileType }
            Inputs Args
    ∧ ∃ Cmd, tools.VE.Linker.ConstructJob true TC C JA Output Inputs Args
        = some (C.addCommand Cmd) := by
  refine ⟨?_, ?_, ?_⟩
  · rw [Linker_ConstructJob_closed_form]
    simp [hFilename, hNothing]
  · rw [Linker_ConstructJob_closed_form, Linker_ConstructJob_closed_form]
    simp only [hFilename]
    simp [InputInfo.isFilename]
  · rw [Linker_ConstructJob_closed_form]
    simp [hFilename]

/-- C5 fails as stated: in a build with `NDEBUG` a link job whose output descriptor is
neither a filename nor the "nothing" marker is built, and its command is appended. -/
theorem Linker_ConstructJob_invalid_output_counterexample :
    tools.VE.Linker.ConstructJob true Sample.TC { Jobs := [] } { id := 0 }
        { Kind := .InputArg, Filename := "", FileType := 0 } [Sample.file "a.o"] []
      = some { Jobs := [
          { Source := { id := 0 }, Creator := tools.VE.Linker,
            Executable := "/opt/nec/ve/bin/ncc",
            Arguments := ["-L/opt/nec/ve/lib", "a.o",
              "/usr/lib/clang/8.0.0/lib/linux/libclang_rt.builtins-ve.a"],
            Inputs := [Sample.file "a.o"] }] } := by
  decide

/-- The property C5, as the code has it, at a concrete link job. -/
theorem Linker_ConstructJob_invalid_output_witness :
    (InputInfo.isFilename { Kind := .InputArg, Filename := "", FileType := 0 } = false
      ∧ InputInfo.isNothing { Kind := .InputArg, Filename := "", FileType := 0 } = false)
    ∧ (tools.VE.Linker.ConstructJob false Sample.TC { Jobs := [] } { id := 0 }
          { Kind := .InputArg, Filename := "", FileType := 0 } [Sample.file "a.o"] [] = none
      ∧ tools.VE.Linker.ConstructJob true Sample.TC { Jobs := [] } { id := 0 }
          { Kind := .InputArg, Filename := "", FileType := 0 } [Sample.file "a.o"] []
        = tools.VE.Linker.ConstructJob true Sample.TC { Jobs := [] } { id := 0 }
          { Kind := .Nothing, Filename := "", FileType := 0 } [Sample.file "a.o"] []
      ∧ ∃ Cmd, tools.VE.Linker.ConstructJob true Sample.TC { Jobs := [] } { id := 0 }
          { Kind := .InputArg, Filename := "", FileType := 0 } [Sample.file "a.o"] []
        = some (Compilation.addCommand { Jobs := [] } Cmd)) :=
  ⟨⟨by decide, by decide⟩,
    Linker_ConstructJob_invalid_output Sample.TC { Jobs := [] } { id := 0 }
      { Kind := .InputArg, Filename := "", FileType := 0 } [Sample.file "a.o"] []
      (by decide) (by decide)⟩

/-- C6: for a concrete output filename `f` the argument list built by
`tools::VE::Linker::ConstructJob` has the adjacent pair "-o", `f` right after the optional
"-shared" / "-static" flags and before the optional "-v"; for the "nothing" marker the
list built from the same options and inputs is that list with the pair removed. -/
theorem Linker_ConstructJob_output_argument (NDEBUG : Bool) (TC : ToolChain)
    (C : Compilation) (JA : JobAction) (f g : String) (FileType FileType2 : Nat)
    (Inputs : InputInfoList) (Args : ArgList) :
    ∃ CmdF CmdN rest,
      tools.VE.Linker.ConstructJob NDEBUG TC C JA
          { Kind := .Filename, Filename := f, FileType := FileType } Inputs Args
        = some (C.addCommand CmdF)
      ∧ tools.VE.Linker.ConstructJob NDEBUG TC C JA
          { Kind := .Nothing, Filename := g, FileType := FileType2 } Inputs Args
        = some (C.addCommand CmdN)
      ∧ CmdF.Arguments =
          (if Args.any (fun A => A.getOption.matches .OPT_shared) then ["-shared"] else [])
            ++ (if Args.any (fun A => A.getOption.matches .OPT_static) then ["-static"] else [])
            ++ ["-o", f]
            ++ (if Args.any (fun A => A.getOption.matches .OPT_v) then ["-v"] else [])
            ++ rest
      ∧ CmdN.Arguments =
          (if Args.any (fun A => A.getOption.matches .OPT_shared) then ["-shared"] else [])
            ++ (if Args.any (fun A => A.getOption.matches .OPT_static) then ["-static"] else [])
            ++ (if Args.any (fun A => A.getOption.matches .OPT_v) then ["-v"] else [])
            ++ rest
      ∧ CmdN = { CmdF with Arguments := CmdN.Arguments } := by
  have hF := Linker_ConstructJob_closed_form NDEBUG TC C JA
    { Kind := .Filename, Filename := f, FileType := FileType } Inputs Args
  have hN := Linker_ConstructJob_closed_form NDEBUG TC C JA
    { Kind := .Nothing, Filename := g, FileType := FileType2 } Inputs Args
  simp only [InputInfo.isFilename, InputInfo.isNothing, beq_self_eq_true, Bool.true_or,
    Bool.or_true, if_true] at hF hN
  refine ⟨_, _,
    (match (Args.filter (fun A => A.getOption.matches .OPT_fexceptions
                    || A.getOption.matches .OPT_fno_exceptions)).getLast? with
          | some A => if A.getOption.matches .OPT_fexceptions then ["-fexceptions"] else []
          | none => [])
      ++ (Args.filter (fun A => A.getOption.matches .OPT_L)).flatMap (fun A => A.render [])
      ++ TC.FilePathLibArgs Args
      ++ TC.LinkerInputs Inputs Args JA
      ++ (if Args.any (fun A => A.getOption.matches .OPT_nostdlib)
              || Args.any (fun A => A.getOption.matches .OPT_nodefaultlibs) then []
          else TC.RunTimeLibs Args),
    hF, hN, ?_, ?_, ?_⟩
  all_goals simp

/-- C7: in the argument list built by `tools::VE::Linker::ConstructJob` the user's -L
arguments, rendered in the order given, form one contiguous block; the block is directly
followed by the arguments of `AddFilePathLibArgs`, and these by the link inputs. -/
theorem Linker_ConstructJob_library_search_paths (NDEBUG : Bool) (TC : ToolChain)
    (C : Compilation) (JA : JobAction) (Output : InputInfo) (Inputs : InputInfoList)
    (Args : ArgList) :
    ∃ Cmd pre post,
      tools.VE.Linker.ConstructJob NDEBUG TC C JA Output Inputs Args
        = (if Output.isFilename || (NDEBUG || Output.isNothing) then some (C.addCommand Cmd)
           else none)
      ∧ Cmd.Arguments =
          pre
            ++ (Args.filter (fun A => A.getOption.matches .OPT_L)).flatMap (fun A => A.render [])
            ++ TC.FilePathLibArgs Args
            ++ TC.LinkerInputs Inputs Args JA
            ++ post := by
  exact ⟨_, _, _, Linker_ConstructJob_closed_form NDEBUG TC C JA Output Inputs Args, rfl⟩

/-- C8: the argument list built by `tools::VE::Linker::ConstructJob` ends with the link
inputs followed by the arguments of `AddRunTimeLibs` when the option set has neither
-nostdlib nor -nodefaultlibs, and ends with the link inputs alone when it has one of
them. -/
theorem Linker_ConstructJob_runtime_libs (NDEBUG : Bool) (TC : ToolChain)
    (C : Compilation) (JA : JobAction) (Output : InputInfo) (Inputs : InputInfoList)
    (Args : ArgList) :
    ∃ Cmd pre,
      tools.VE.Linker.ConstructJob NDEBUG TC C JA Output Inputs Args
        = (if Output.isFilename || (NDEBUG || Output.isNothing) then some (C.addCommand Cmd)
           else none)
      ∧ Cmd.Arguments =
          pre ++ TC.LinkerInputs Inputs Args JA
            ++ (if Args.any (fun A => A.getOption.matches .OPT_nostdlib)
                    || Args.any (fun A => A.getOption.matches .OPT_nodefaultlibs) then []
                else TC.RunTimeLibs Args) := by
  exact ⟨_, _, Linker_ConstructJob_closed_form NDEBUG TC C JA Output Inputs Args, rfl⟩

/-! ## Include-path resolver -/

theorem StringRef.find_eq_none (Separator : Char) (S : List Char) (h : Separator ∉ S) :
    StringRef.find Separator S = none := by
  induction S with
  | nil => rfl
  | cons c cs ih =>
    have hc : c ≠ Separator := fun e => h (by simp [e])
    have hcs : Separator ∉ cs := fun m => h (List.mem_cons_of_mem _ m)
    simp [StringRef.find, hc, ih hcs]

theorem StringRef.find_append (Separator : Char) (S T : List Char) (h : Separator ∉ S) :
    StringRef.find Separator (S ++ Separator :: T) = some S.length := by
  induction S with
  | nil => simp [StringRef.find]
  | cons c cs ih =>
    have hc : c ≠ Separator := fun e => h (by simp [e])
    have hcs : Separator ∉ cs := fun m => h (List.mem_cons_of_mem _ m)
    simp [StringRef.find, hc, ih hcs]

theorem StringRef.splitLoop_eq_single (Separator : Char) (MaxSplit : Nat) (S : List Char)
    (h : Separator ∉ S) : StringRef.splitLoop Separator MaxSplit S = [S] := by
  cases MaxSplit with
  | zero => rfl
  | succ n => simp [StringRef.splitLoop, StringRef.find_eq_none Separator S h]

theorem StringRef.split_two (d1 d2 : String) (Separator : Char)
    (h1 : Separator ∉ d1.data) (h2 : Separator ∉ d2.data) :
    StringRef.split (d1 ++ String.singleton Separator ++ d2) Separator = [d1, d2] := by
  unfold StringRef.split
  have hd : (d1 ++ String.singleton Separator ++ d2).data = d1.data ++ Separator :: d2.data := by
    simp [String.data_append, String.singleton]
  have hdrop : (d1.data ++ Separator :: d2.data).drop (d1.data.length + 1) = d2.data := by
    rw [show d1.data ++ Separator :: d2.data = (d1.data ++ [Separator]) ++ d2.data by simp]
    exact List.drop_left' (by simp)
  rw [hd, StringRef.splitLoop, StringRef.find_append Separator _ _ h1]
  simp only [hdrop, StringRef.splitLoop_eq_single Separator _ _ h2, List.take_left']
  simp

theorem addSystemInclude_eq (CC1Args : ArgStringList) (Path : String) :
    addSystemInclude CC1Args Path = CC1Args ++ ["-internal-isystem", Path] := by
  simp [addSystemInclude, push_back]

/-- C9: when the option set contains -nostdinc, `VEToolChain::AddClangSystemIncludeArgs`
leaves the buffer unchanged, whatever the environment and the other options are. -/
theorem AddClangSystemIncludeArgs_nostdinc (TC : ToolChain)
    (getenv : String → Option String) (EnvPathSeparator : Char) (DriverArgs : ArgList)
    (CC1Args : ArgStringList)
    (h : ∃ A ∈ DriverArgs, A.getOption.matches .OPT_nostdinc = true) :
    VEToolChain.AddClangSystemIncludeArgs TC getenv EnvPathSeparator DriverArgs CC1Args
      = CC1Args := by
  have hn : DriverArgs.hasArg [.OPT_nostdinc] = true := by
    rw [ArgList.hasArg_single]
    exact List.any_eq_true.mpr h
  simp [VEToolChain.AddClangSystemIncludeArgs, hn]

/-- The property C9 at a concrete option set with -nostdinc and the override set. -/
theorem AddClangSystemIncludeArgs_nostdinc_witness :
    (∃ A ∈ [Sample.flag .OPT_nostdinc "-nostdinc"], A.getOption.matches .OPT_nostdinc = true)
    ∧ VEToolChain.AddClangSystemIncludeArgs Sample.TC Sample.getenv ':'
        [Sample.flag .OPT_nostdinc "-nostdinc"] ["-triple", "ve"] = ["-triple", "ve"] :=
  ⟨by decide,
    AddClangSystemIncludeArgs_nostdinc Sample.TC Sample.getenv ':'
      [Sample.flag .OPT_nostdinc "-nostdinc"] ["-triple", "ve"] (by decide)⟩

/-- C10, as the code has it: with `NCC_C_INCLUDE_PATH` set to `d1`, the separator, `d2`
(neither directory containing the separator) and none of -nostdinc, -nobuiltininc,
-nostdlibinc in the option set, `VEToolChain::AddClangSystemIncludeArgs` appends the include
arguments for `d1` and `d2`, in that order, instead of the one for the built-in default
directory, and then the include argument for the `include` subdirectory of the resource
directory: three include arguments. -/
theorem AddClangSystemIncludeArgs_override_two (TC : ToolChain)
    (getenv : String → Option String) (EnvPathSeparator : Char) (DriverArgs : ArgList)
    (CC1Args : ArgStringList) (d1 d2 : String)
    (hEnv : getenv "NCC_C_INCLUDE_PATH" = some (d1 ++ String.singleton EnvPathSeparator ++ d2))
    (h1 : EnvPathSeparator ∉ d1.data) (h2 : EnvPathSeparator ∉ d2.data)
    (hNone : ∀ A ∈ DriverArgs, A.getOption.matches .OPT_nostdinc = false
        ∧ A.getOption.matches .OPT_nobuiltininc = false
        ∧ A.getOption.matches .OPT_nostdlibinc = false) :
    VEToolChain.AddClangSystemIncludeArgs TC getenv EnvPathSeparator DriverArgs CC1Args
      = CC1Args ++ ["-internal-isystem", d1, "-internal-isystem", d2,
          "-internal-isystem", path_append TC.ResourceDir "include"] := by
  have n1 : DriverArgs.hasArg [.OPT_nostdinc] = false := by
    rw [ArgList.hasArg_single, List.any_eq_false]
    intro A hA; simp [(hNone A hA).1]
  have n2 : DriverArgs.hasArg [.OPT_nobuiltininc] = false := by
    rw [ArgList.hasArg_single, List.any_eq_false]
    intro A hA; simp [(hNone A hA).2.1]
  have n3 : DriverArgs.hasArg [.OPT_nostdlibinc] = false := by
    rw [ArgList.hasArg_single, List.any_eq_false]
    intro A hA; simp [(hNone A hA).2.2]
  simp [VEToolChain.AddClangSystemIncludeArgs, n1, n2, n3, hEnv,
    StringRef.split_two d1 d2 EnvPathSeparator h1 h2, addSystemIncludes, addSystemInclude_eq]

/-- C10 fails as stated: with `NCC_C_INCLUDE_PATH` set to `/a:/b` and an empty option set
three include arguments are appended, not two: the third is for the resource directory. -/
theorem AddClangSystemIncludeArgs_override_two_counterexample :
    Sample.getenv "NCC_C_INCLUDE_PATH" = some "/a:/b"
    ∧ VEToolChain.AddClangSystemIncludeArgs Sample.TC Sample.getenv ':' [] []
      = ["-internal-isystem", "/a", "-internal-isystem", "/b",
          "-internal-isystem", "/usr/lib/clang/8.0.0/include"]
    ∧ addSystemIncludes [] ["/a", "/b"] = ["-internal-isystem", "/a", "-internal-isystem", "/b"]
    ∧ VEToolChain.AddClangSystemIncludeArgs Sample.TC Sample.getenv ':' [] []
      ≠ addSystemIncludes [] ["/a", "/b"] := by
  decide

/-- The property C10, as the code has it, at the override `/a:/b`. -/
theorem AddClangSystemIncludeArgs_override_two_witness :
    (Sample.getenv "NCC_C_INCLUDE_PATH" = some ("/a" ++ String.singleton ':' ++ "/b")
      ∧ ':' ∉ "/a".data ∧ ':' ∉ "/b".data
      ∧ ∀ A ∈ ([] : ArgList), A.getOption.matches .OPT_nostdinc = false
        ∧ A.getOption.matches .OPT_nobuiltininc = false
        ∧ A.getOption.matches .OPT_nostdlibinc = false)
    ∧ VEToolChain.AddClangSystemIncludeArgs Sample.TC Sample.getenv ':' [] ["-triple", "ve"]
      = ["-triple", "ve"] ++ ["-internal-isystem", "/a", "-internal-isystem", "/b",
          "-internal-isystem", path_append Sample.TC.ResourceDir "include"] :=
  ⟨⟨by decide, by decide, by decide, by decide⟩,
    AddClangSystemIncludeArgs_override_two Sample.TC Sample.getenv ':' [] ["-triple", "ve"]
      "/a" "/b" (by decide) (by decide) (by decide) (by decide)⟩

/-! ## Include-path resolver: default directory, built-in step, C++ resolver -/

theorem ArgList.hasArg_eq_false (Args : ArgList) (Id : OptID)
    (h : ∀ A ∈ Args, A.getOption.matches Id = false) : Args.hasArg [Id] = false := by
  rw [ArgList.hasArg_single, List.any_eq_false]
  intro A hA
  simp [h A hA]

theorem ArgList.hasArg_eq_true (Args : ArgList) (Id : OptID)
    (h : ∃ A ∈ Args, A.getOption.matches Id = true) : Args.hasArg [Id] = true := by
  rw [ArgList.hasArg_single]
  exact List.any_eq_true.mpr h

theorem addSystemIncludes_eq (CC1Args : ArgStringList) (Paths : List String) :
    addSystemIncludes CC1Args Paths
      = CC1Args ++ Paths.flatMap (fun Path => ["-internal-isystem", Path]) := by
  unfold addSystemIncludes
  induction Paths generalizing CC1Args with
  | nil => simp
  | cons P Ps ih => rw [List.foldl_cons, ih, addSystemInclude_eq]; simp

/-- C11, as the code has it: with `NCC_C_INCLUDE_PATH` unset and none of -nostdinc,
-nobuiltininc, -nostdlibinc in the option set, `VEToolChain::AddClangSystemIncludeArgs`
appends the include argument for the built-in default directory
`<system root>/opt/nec/ve/musl/include` and then the include argument for the `include`
subdirectory of the resource directory: two include arguments. -/
theorem AddClangSystemIncludeArgs_default_directory (TC : ToolChain)
    (getenv : String → Option String) (EnvPathSeparator : Char) (DriverArgs : ArgList)
    (CC1Args : ArgStringList)
    (hEnv : getenv "NCC_C_INCLUDE_PATH" = none)
    (hNone : ∀ A ∈ DriverArgs, A.getOption.matches .OPT_nostdinc = false
        ∧ A.getOption.matches .OPT_nobuiltininc = false
        ∧ A.getOption.matches .OPT_nostdlibinc = false) :
    VEToolChain.AddClangSystemIncludeArgs TC getenv EnvPathSeparator DriverArgs CC1Args
      = CC1Args ++ ["-internal-isystem", TC.SysRoot ++ "/opt/nec/ve/musl/include",
          "-internal-isystem", path_append TC.ResourceDir "include"] := by
  have n1 := ArgList.hasArg_eq_false DriverArgs .OPT_nostdinc (fun A hA => (hNone A hA).1)
  have n2 := ArgList.hasArg_eq_false DriverArgs .OPT_nobuiltininc (fun A hA => (hNone A hA).2.1)
  have n3 := ArgList.hasArg_eq_false DriverArgs .OPT_nostdlibinc (fun A hA => (hNone A hA).2.2)
  simp [VEToolChain.AddClangSystemIncludeArgs, n1, n2, n3, hEnv, addSystemInclude_eq]

/-- C11 fails as stated: with no variable set and an empty option set two include
arguments are appended, not one: the second is for the resource directory. -/
theorem AddClangSystemIncludeArgs_default_directory_counterexample :
    Sample.noenv "NCC_C_INCLUDE_PATH" = none
    ∧ VEToolChain.AddClangSystemIncludeArgs Sample.TC Sample.noenv ':' [] []
      = ["-internal-isystem", "/opt/nec/ve/musl/include",
          "-internal-isystem", "/usr/lib/clang/8.0.0/include"]
    ∧ addSystemInclude [] (Sample.TC.SysRoot ++ "/opt/nec/ve/musl/include")
      = ["-internal-isystem", "/opt/nec/ve/musl/include"]
    ∧ VEToolChain.AddClangSystemIncludeArgs Sample.TC Sample.noenv ':' [] []
      ≠ addSystemInclude [] (Sample.TC.SysRoot ++ "/opt/nec/ve/musl/include") := by
  decide

/-- The property C11, as the code has it, with no variable set and the option `-v`. -/
theorem AddClangSystemIncludeArgs_default_directory_witness :
    (Sample.noenv "NCC_C_INCLUDE_PATH" = none
      ∧ ∀ A ∈ [Sample.flag .OPT_v "-v"], A.getOption.matches .OPT_nostdinc = false
        ∧ A.getOption.matches .OPT_nobuiltininc = false
        ∧ A.getOption.matches .OPT_nostdlibinc = false)
    ∧ VEToolChain.AddClangSystemIncludeArgs Sample.TC Sample.noenv ':'
        [Sample.flag .OPT_v "-v"] ["-triple", "ve"]
      = ["-triple", "ve"] ++ ["-internal-isystem", Sample.TC.SysRoot ++ "/opt/nec/ve/musl/include",
          "-internal-isystem", path_append Sample.TC.ResourceDir "include"] :=
  ⟨⟨by decide, by decide⟩,
    AddClangSystemIncludeArgs_default_directory Sample.TC Sample.noenv ':'
      [Sample.flag .OPT_v "-v"] ["-triple", "ve"] (by decide) (by decide)⟩

/-- The result of `VEToolChain::AddClangSystemIncludeArgs` in closed form: the include
arguments of one list of directories, appended to the buffer. -/
theorem AddClangSystemIncludeArgs_closed_form (TC : ToolChain)
    (getenv : String → Option String) (EnvPathSeparator : Char) (DriverArgs : ArgList)
    (CC1Args : ArgStringList) :
    VEToolChain.AddClangSystemIncludeArgs TC getenv EnvPathSeparator DriverArgs CC1Args
      = addSystemIncludes CC1Args
          (if DriverArgs.any (fun A => A.getOption.matches .OPT_nostdinc) then []
           else
            (if DriverArgs.any (fun A => A.getOption.matches .OPT_nostdlibinc) then []
             else match getenv "NCC_C_INCLUDE_PATH" with
              | some cl_include_dir => StringRef.split cl_include_dir EnvPathSeparator
              | none => [TC.SysRoot ++ "/opt/nec/ve/musl/include"])
            ++ (if DriverArgs.any (fun A => A.getOption.matches .OPT_nobuiltininc) then []
                else [path_append TC.ResourceDir "include"])) := by
  unfold VEToolChain.AddClangSystemIncludeArgs
  simp only [ArgList.hasArg_single]
  generalize DriverArgs.any (fun A => A.getOption.matches .OPT_nostdinc) = b1
  generalize DriverArgs.any (fun A => A.getOption.matches .OPT_nostdlibinc) = b2
  generalize DriverArgs.any (fun A => A.getOption.matches .OPT_nobuiltininc) = b3
  cases b1 <;> cases b2 <;> cases b3 <;> cases getenv "NCC_C_INCLUDE_PATH" <;>
    simp [addSystemIncludes_eq, addSystemInclude_eq]

/-- C12, as the code has it: when the option set contains neither -nostdinc nor
-nobuiltininc, whatever the override variable and -nostdlibinc are, the built-in step of
`VEToolChain::AddClangSystemIncludeArgs` appends exactly one include argument, for the
`include` subdirectory of the resource directory, and it is the last one appended, after
the include arguments of step (3) for the directories `Dirs`; it is the only include
argument for that directory when `Dirs` does not contain it.  When the option set
contains -nobuiltininc only the include arguments of step (3) are appended. -/
theorem AddClangSystemIncludeArgs_builtin_step (TC : ToolChain)
    (getenv : String → Option String) (EnvPathSeparator : Char) (DriverArgs : ArgList)
    (CC1Args : ArgStringList) :
    ((∀ A ∈ DriverArgs, A.getOption.matches .OPT_nostdinc = false
          ∧ A.getOption.matches .OPT_nobuiltininc = false) →
      ∃ Dirs,
        Dirs = (if DriverArgs.any (fun A => A.getOption.matches .OPT_nostdlibinc) then []
                else match getenv "NCC_C_INCLUDE_PATH" with
                  | some cl_include_dir => StringRef.split cl_include_dir EnvPathSeparator
                  | none => [TC.SysRoot ++ "/opt/nec/ve/musl/include"])
        ∧ VEToolChain.AddClangSystemIncludeArgs TC getenv EnvPathSeparator DriverArgs CC1Args
            = addSystemInclude (addSystemIncludes CC1Args Dirs)
                (path_append TC.ResourceDir "include")
        ∧ VEToolChain.AddClangSystemIncludeArgs TC getenv EnvPathSeparator DriverArgs CC1Args
            = CC1Args ++ Dirs.flatMap (fun Path => ["-internal-isystem", Path])
                ++ ["-internal-isystem", path_append TC.ResourceDir "include"]
        ∧ (path_append TC.ResourceDir "include" ∉ Dirs →
            (Dirs ++ [path_append TC.ResourceDir "include"]).count
              (path_append TC.ResourceDir "include") = 1))
    ∧ ((∃ A ∈ DriverArgs, A.getOption.matches .OPT_nobuiltininc = true) →
        VEToolChain.AddClangSystemIncludeArgs TC getenv EnvPathSeparator DriverArgs CC1Args
          = addSystemIncludes CC1Args
              (if DriverArgs.any (fun A => A.getOption.matches .OPT_nostdinc)
                    || DriverArgs.any (fun A => A.getOption.matches .OPT_nostdlibinc) then []
               else match getenv "NCC_C_INCLUDE_PATH" with
                | some cl_include_dir => StringRef.split cl_include_dir EnvPathSeparator
                | none => [TC.SysRoot ++ "/opt/nec/ve/musl/include"])) := by
  constructor
  · intro hNone
    have n1 : DriverArgs.any (fun A => A.getOption.matches .OPT_nostdinc) = false := by
      rw [List.any_eq_false]; intro A hA; simp [(hNone A hA).1]
    have n2 : DriverArgs.any (fun A => A.getOption.matches .OPT_nobuiltininc) = false := by
      rw [List.any_eq_false]; intro A hA; simp [(hNone A hA).2]
    refine ⟨_, rfl, ?_, ?_, ?_⟩
    · rw [AddClangSystemIncludeArgs_closed_form]
      simp [n1, n2, addSystemIncludes_eq, addSystemInclude_eq]
    · rw [AddClangSystemIncludeArgs_closed_form]
      simp [n1, n2, addSystemIncludes_eq]
    · intro hnot
      rw [List.count_append, List.count_eq_zero_of_not_mem hnot]
      simp
  · intro hB
    have n2 : DriverArgs.any (fun A => A.getOption.matches .OPT_nobuiltininc) = true :=
      List.any_eq_true.mpr hB
    rw [AddClangSystemIncludeArgs_closed_form]
    cases h1 : DriverArgs.any (fun A => A.getOption.matches .OPT_nostdinc) <;>
      cases h3 : DriverArgs.any (fun A => A.getOption.matches .OPT_nostdlibinc) <;>
      simp [n2]

/-- C12 fails as stated: with `NCC_C_INCLUDE_PATH` set to the `include` subdirectory of
the resource directory and an empty option set, two include arguments for that directory
are appended, one by step (3) and one by the built-in step. -/
theorem AddClangSystemIncludeArgs_builtin_step_counterexample :
    path_append Sample.TC.ResourceDir "include" = "/usr/lib/clang/8.0.0/include"
    ∧ Sample.getenvResource "NCC_C_INCLUDE_PATH" = some "/usr/lib/clang/8.0.0/include"
    ∧ VEToolChain.AddClangSystemIncludeArgs Sample.TC Sample.getenvResource ':' [] []
      = ["-internal-isystem", "/usr/lib/clang/8.0.0/include",
          "-internal-isystem", "/usr/lib/clang/8.0.0/include"]
    ∧ (VEToolChain.AddClangSystemIncludeArgs Sample.TC Sample.getenvResource ':' [] []).count
        "/usr/lib/clang/8.0.0/include" = 2 := by
  decide

/-- The property C12, as the code has it, at concrete option sets: with -nobuiltininc only
the override directories `/a`, `/b` are emitted; with -nostdlibinc only the built-in
include argument is. -/
theorem AddClangSystemIncludeArgs_builtin_step_witness :
    (∃ A ∈ [Sample.flag .OPT_nobuiltininc "-nobuiltininc"],
        A.getOption.matches .OPT_nobuiltininc = true)
    ∧ VEToolChain.AddClangSystemIncludeArgs Sample.TC Sample.getenv ':'
        [Sample.flag .OPT_nobuiltininc "-nobuiltininc"] ["-triple", "ve"]
      = addSystemIncludes ["-triple", "ve"]
          (if [Sample.flag .OPT_nobuiltininc "-nobuiltininc"].any
                  (fun A => A.getOption.matches .OPT_nostdinc)
                || [Sample.flag .OPT_nobuiltininc "-nobuiltininc"].any
                  (fun A => A.getOption.matches .OPT_nostdlibinc) then []
           else match Sample.getenv "NCC_C_INCLUDE_PATH" with
            | some cl_include_dir => StringRef.split cl_include_dir ':'
            | none => [Sample.TC.SysRoot ++ "/opt/nec/ve/musl/include"])
    ∧ VEToolChain.AddClangSystemIncludeArgs Sample.TC Sample.getenv ':'
        [Sample.flag .OPT_nobuiltininc "-nobuiltininc"] ["-triple", "ve"]
      = ["-triple", "ve", "-internal-isystem", "/a", "-internal-isystem", "/b"]
    ∧ VEToolChain.AddClangSystemIncludeArgs Sample.TC Sample.getenv ':'
        [Sample.flag .OPT_nostdlibinc "-nostdlibinc"] ["-triple", "ve"]
      = ["-triple", "ve", "-internal-isystem", "/usr/lib/clang/8.0.0/include"] :=
  ⟨by decide,
    (AddClangSystemIncludeArgs_builtin_step Sample.TC Sample.getenv ':'
      [Sample.flag .OPT_nobuiltininc "-nobuiltininc"] ["-triple", "ve"]).2 (by decide),
    by decide, by decide⟩

/-- C13: when `NCC_CPLUS_INCLUDE_PATH` is unset, `VEToolChain::AddClangCXXStdlibIncludeArgs`
leaves the buffer unchanged for every option set. -/
theorem AddClangCXXStdlibIncludeArgs_unset (getenv : String → Option String)
    (EnvPathSeparator : Char) (DriverArgs : ArgList) (CC1Args : ArgStringList)
    (hEnv : getenv "NCC_CPLUS_INCLUDE_PATH" = none) :
    VEToolChain.AddClangCXXStdlibIncludeArgs getenv EnvPathSeparator DriverArgs CC1Args
      = CC1Args := by
  unfold VEToolChain.AddClangCXXStdlibIncludeArgs
  rw [hEnv]
  split <;> rfl

/-- The property C13 in an environment where only `NCC_C_INCLUDE_PATH` is set. -/
theorem AddClangCXXStdlibIncludeArgs_unset_witness :
    Sample.getenv "NCC_CPLUS_INCLUDE_PATH" = none
    ∧ VEToolChain.AddClangCXXStdlibIncludeArgs Sample.getenv ':' [Sample.flag .OPT_v "-v"]
        ["-triple", "ve"] = ["-triple", "ve"] :=
  ⟨by decide,
    AddClangCXXStdlibIncludeArgs_unset Sample.getenv ':' [Sample.flag .OPT_v "-v"]
      ["-triple", "ve"] (by decide)⟩

/-- C14: `VEToolChain::AddClangCXXStdlibIncludeArgs` appends nothing when -nostdinc is set,
when -nobuiltininc and -nostdlibinc are both set, or when -nostdinc++ is set; and when
none of -nostdinc, -nostdlibinc, -nostdinc++ is set and `NCC_CPLUS_INCLUDE_PATH` is set,
it appends one include argument per piece of the variable split on the separator, in
that order, and nothing else. -/
theorem AddClangCXXStdlibIncludeArgs_precedence (getenv : String → Option String)
    (EnvPathSeparator : Char) (DriverArgs : ArgList) (CC1Args : ArgStringList) :
    (((∃ A ∈ DriverArgs, A.getOption.matches .OPT_nostdinc = true)
        ∨ ((∃ A ∈ DriverArgs, A.getOption.matches .OPT_nobuiltininc = true)
            ∧ (∃ A ∈ DriverArgs, A.getOption.matches .OPT_nostdlibinc = true))
        ∨ (∃ A ∈ DriverArgs, A.getOption.matches .OPT_nostdincxx = true)) →
      VEToolChain.AddClangCXXStdlibIncludeArgs getenv EnvPathSeparator DriverArgs CC1Args
        = CC1Args)
    ∧ (∀ cl_include_dir,
        (∀ A ∈ DriverArgs, A.getOption.matches .OPT_nostdinc = false
            ∧ A.getOption.matches .OPT_nostdlibinc = false
            ∧ A.getOption.matches .OPT_nostdincxx = false) →
        getenv "NCC_CPLUS_INCLUDE_PATH" = some cl_include_dir →
        VEToolChain.AddClangCXXStdlibIncludeArgs getenv EnvPathSeparator DriverArgs CC1Args
          = CC1Args ++ (StringRef.split cl_include_dir EnvPathSeparator).flatMap
              (fun Path => ["-internal-isystem", Path])) := by
  constructor
  · rintro (h | ⟨_, h⟩ | h)
    · have := ArgList.hasArg_eq_true DriverArgs .OPT_nostdinc h
      simp [VEToolChain.AddClangCXXStdlibIncludeArgs, this]
    · have := ArgList.hasArg_eq_true DriverArgs .OPT_nostdlibinc h
      simp [VEToolChain.AddClangCXXStdlibIncludeArgs, this]
    · have := ArgList.hasArg_eq_true DriverArgs .OPT_nostdincxx h
      simp [VEToolChain.AddClangCXXStdlibIncludeArgs, this]
  · intro s hNone hEnv
    have n1 := ArgList.hasArg_eq_false DriverArgs .OPT_nostdinc (fun A hA => (hNone A hA).1)
    have n2 := ArgList.hasArg_eq_false DriverArgs .OPT_nostdlibinc (fun A hA => (hNone A hA).2.1)
    have n3 := ArgList.hasArg_eq_false DriverArgs .OPT_nostdincxx (fun A hA => (hNone A hA).2.2)
    simp [VEToolChain.AddClangCXXStdlibIncludeArgs, n1, n2, n3, hEnv, addSystemIncludes_eq]

/-- The property C14 at concrete option sets, `NCC_CPLUS_INCLUDE_PATH` being `/x::/y`:
with -nobuiltininc and -nostdlibinc nothing is appended; with an empty option set the
three pieces are. -/
theorem AddClangCXXStdlibIncludeArgs_precedence_witness :
    ((∃ A ∈ [Sample.flag .OPT_nobuiltininc "-nobuiltininc",
            Sample.flag .OPT_nostdlibinc "-nostdlibinc"],
          A.getOption.matches .OPT_nobuiltininc = true)
      ∧ (∃ A ∈ [Sample.flag .OPT_nobuiltininc "-nobuiltininc",
            Sample.flag .OPT_nostdlibinc "-nostdlibinc"],
          A.getOption.matches .OPT_nostdlibinc = true))
    ∧ VEToolChain.AddClangCXXStdlibIncludeArgs Sample.getenvEmptyPiece ':'
        [Sample.flag .OPT_nobuiltininc "-nobuiltininc",
          Sample.flag .OPT_nostdlibinc "-nostdlibinc"] ["-triple", "ve"]
      = ["-triple", "ve"]
    ∧ Sample.getenvEmptyPiece "NCC_CPLUS_INCLUDE_PATH" = some "/x::/y"
    ∧ VEToolChain.AddClangCXXStdlibIncludeArgs Sample.getenvEmptyPiece ':' [] ["-triple", "ve"]
      = ["-triple", "ve"] ++ (StringRef.split "/x::/y" ':').flatMap
          (fun Path => ["-internal-isystem", Path])
    ∧ VEToolChain.AddClangCXXStdlibIncludeArgs Sample.getenvEmptyPiece ':' [] ["-triple", "ve"]
      = ["-triple", "ve", "-internal-isystem", "/x", "-internal-isystem", "",
          "-internal-isystem", "/y"] :=
  ⟨⟨by decide, by decide⟩,
    (AddClangCXXStdlibIncludeArgs_precedence Sample.getenvEmptyPiece ':'
      [Sample.flag .OPT_nobuiltininc "-nobuiltininc",
        Sample.flag .OPT_nostdlibinc "-nostdlibinc"] ["-triple", "ve"]).1
      (Or.inr (Or.inl ⟨by decide, by decide⟩)),
    by decide,
    (AddClangCXXStdlibIncludeArgs_precedence Sample.getenvEmptyPiece ':' []
      ["-triple", "ve"]).2 "/x::/y" (by decide) (by decide),
    by decide⟩

theorem addClangTargetOptions_eq (DriverArgs : ArgList) (A : ArgStringList)
    (DeviceOffloadKind : Action.OffloadKind) :
    VEToolChain.addClangTargetOptions DriverArgs A DeviceOffloadKind
      = A ++ ["-nostdsysteminc", "-fuse-init-array"] := by
  simp [VEToolChain.addClangTargetOptions, push_back]

/-- C15: for every option set, offload kind and initial buffer `A`,
`VEToolChain::addClangTargetOptions` leaves the buffer equal to `A` followed by
"-nostdsysteminc" and "-fuse-init-array". -/
theorem addClangTargetOptions_appends_two_flags (DriverArgs : ArgList) (A : ArgStringList)
    (DeviceOffloadKind : Action.OffloadKind) :
    VEToolChain.addClangTargetOptions DriverArgs A DeviceOffloadKind
      = A ++ ["-nostdsysteminc", "-fuse-init-array"] :=
  addClangTargetOptions_eq DriverArgs A DeviceOffloadKind

/-- C17: for every tool chain, `isPICDefault`, `isPIEDefault`, `isPICDefaultForced`,
`SupportsProfiling` and `hasBlocksRuntime` return false, `GetDefaultRuntimeLibType`
returns `RLT_CompilerRT` and `getDefaultLinker` returns "nld". -/
theorem VEToolChain_policy_constant (TC : ToolChain) :
    VEToolChain.isPICDefault TC = false
    ∧ VEToolChain.isPIEDefault TC = false
    ∧ VEToolChain.isPICDefaultForced TC = false
    ∧ VEToolChain.SupportsProfiling TC = false
    ∧ VEToolChain.hasBlocksRuntime TC = false
    ∧ VEToolChain.GetDefaultRuntimeLibType TC = RuntimeLibType.RLT_CompilerRT
    ∧ VEToolChain.getDefaultLinker TC = "nld" :=
  ⟨rfl, rfl, rfl, rfl, rfl, rfl, rfl⟩

theorem AddClangCXXStdlibIncludeArgs_closed_form (getenv : String → Option String)
    (EnvPathSeparator : Char) (DriverArgs : ArgList) (CC1Args : ArgStringList) :
    VEToolChain.AddClangCXXStdlibIncludeArgs getenv EnvPathSeparator DriverArgs CC1Args
      = addSystemIncludes CC1Args
          (if DriverArgs.hasArg [.OPT_nostdinc] || DriverArgs.hasArg [.OPT_nostdlibinc]
              || DriverArgs.hasArg [.OPT_nostdincxx] then []
           else match getenv "NCC_CPLUS_INCLUDE_PATH" with
            | some cl_include_dir => StringRef.split cl_include_dir EnvPathSeparator
            | none => []) := by
  unfold VEToolChain.AddClangCXXStdlibIncludeArgs
  split
  · simp [addSystemIncludes]
  · cases getenv "NCC_CPLUS_INCLUDE_PATH" <;> simp [addSystemIncludes]

/-- C18: for every option set, environment and initial buffer `A`, the buffer after
`AddClangSystemIncludeArgs`, `AddClangCXXStdlibIncludeArgs` or `addClangTargetOptions` has
`A` as a prefix, and the buffer after `AddCXXStdlibLibArgs` is `A`. -/
theorem VEToolChain_operations_only_append (TC : ToolChain)
    (getenv : String → Option String) (EnvPathSeparator : Char) (DriverArgs : ArgList)
    (DeviceOffloadKind : Action.OffloadKind) (A : ArgStringList) :
    A <+: VEToolChain.AddClangSystemIncludeArgs TC getenv EnvPathSeparator DriverArgs A
    ∧ A <+: VEToolChain.AddClangCXXStdlibIncludeArgs getenv EnvPathSeparator DriverArgs A
    ∧ A <+: VEToolChain.addClangTargetOptions DriverArgs A DeviceOffloadKind
    ∧ VEToolChain.AddCXXStdlibLibArgs DriverArgs A = A := by
  refine ⟨?_, ?_, ?_, rfl⟩
  · rw [AddClangSystemIncludeArgs_closed_form, addSystemIncludes_eq]
    exact List.prefix_append _ _
  · rw [AddClangCXXStdlibIncludeArgs_closed_form, addSystemIncludes_eq]
    exact List.prefix_append _ _
  · rw [addClangTargetOptions_eq]
    exact List.prefix_append _ _

/-- C19: the early return of step (2) is redundant: for every option set, environment and
initial buffer, `VEToolChain::AddClangSystemIncludeArgs` returns what the variant without
the check "-nobuiltininc and -nostdlibinc both set" returns. -/
theorem AddClangSystemIncludeArgs_step2_redundant (TC : ToolChain)
    (getenv : String → Option String) (EnvPathSeparator : Char) (DriverArgs : ArgList)
    (CC1Args : ArgStringList) :
    VEToolChain.AddClangSystemIncludeArgs TC getenv EnvPathSeparator DriverArgs CC1Args
      = VEToolChain.AddClangSystemIncludeArgs_without_step2 TC getenv EnvPathSeparator
          DriverArgs CC1Args := by
  unfold VEToolChain.AddClangSystemIncludeArgs VEToolChain.AddClangSystemIncludeArgs_without_step2
  cases h1 : DriverArgs.hasArg [.OPT_nostdinc] <;>
    cases h2 : DriverArgs.hasArg [.OPT_nobuiltininc] <;>
    cases h3 : DriverArgs.hasArg [.OPT_nostdlibinc] <;> simp

/-! ## Splitting the override variable -/

theorem StringRef.find_some (Separator : Char) (S : List Char) (Idx : Nat)
    (h : StringRef.find Separator S = some Idx) :
    S = S.take Idx ++ Separator :: S.drop (Idx + 1) ∧ Separator ∉ S.take Idx
      ∧ Idx < S.length := by
  induction S generalizing Idx with
  | nil => simp [StringRef.find] at h
  | cons c cs ih =>
    unfold StringRef.find at h
    by_cases hc : c = Separator
    · simp [hc] at h
      subst h
      simp [hc]
    · simp only [hc, if_false, Option.map_eq_some'] at h
      obtain ⟨j, hj, rfl⟩ := h
      obtain ⟨h1, h2, h3⟩ := ih j hj
      refine ⟨?_, ?_, ?_⟩
      · simp only [List.take_succ_cons, List.drop_succ_cons, List.cons_append]
        rw [← h1]
      · simp only [List.take_succ_cons, List.mem_cons, not_or]
        exact ⟨fun e => hc e.symm, h2⟩
      · simp only [List.length_cons]
        omega

theorem StringRef.not_mem_of_find_eq_none (Separator : Char) (S : List Char)
    (h : StringRef.find Separator S = none) : Separator ∉ S := by
  induction S with
  | nil => simp
  | cons c cs ih =>
    unfold StringRef.find at h
    by_cases hc : c = Separator
    · simp [hc] at h
    · simp only [hc, if_false, Option.map_eq_none'] at h
      simp only [List.mem_cons, not_or]
      exact ⟨fun e => hc e.symm, ih h⟩

/-- The pieces that the loop of `StringRef::split` pushes, when the rounds do not run out:
one more than there are separators, and joined by the separator they give the string. -/
theorem StringRef.splitLoop_pieces (Separator : Char) (MaxSplit : Nat) (S : List Char)
    (h : S.length < MaxSplit) :
    ∃ p ps, StringRef.splitLoop Separator MaxSplit S = p :: ps
      ∧ S = p ++ ps.flatMap (fun q => Separator :: q)
      ∧ ps.length = S.count Separator := by
  induction MaxSplit generalizing S with
  | zero => omega
  | succ n ih =>
    unfold StringRef.splitLoop
    cases hf : StringRef.find Separator S with
    | none =>
      refine ⟨S, [], rfl, by simp, ?_⟩
      have hnot := StringRef.not_mem_of_find_eq_none Separator S hf
      simp [List.count_eq_zero_of_not_mem hnot]
    | some Idx =>
      obtain ⟨hS, hnot, hIdx⟩ := StringRef.find_some Separator S Idx hf
      have hlen : (S.drop (Idx + 1)).length < n := by
        simp only [List.length_drop]
        omega
      obtain ⟨p, ps, hp, hjoin, hcount⟩ := ih (S.drop (Idx + 1)) hlen
      refine ⟨S.take Idx, p :: ps, by simp [hp], ?_, ?_⟩
      · simp only [List.flatMap_cons, List.cons_append]
        rw [← hjoin]
        exact hS
      · rw [List.length_cons, hcount]
        conv_rhs => rw [hS]
        simp [List.count_append, List.count_cons, List.count_eq_zero_of_not_mem hnot]

theorem StringRef.intercalate_go_data (acc sep : String) (L : List String) :
    (String.intercalate.go acc sep L).data
      = acc.data ++ L.flatMap (fun a => sep.data ++ a.data) := by
  induction L generalizing acc with
  | nil => simp [String.intercalate.go]
  | cons a as ih => simp [String.intercalate.go, ih, String.data_append]

/-- The pieces of `StringRef::split`: one more than there are separators in the string,
and joined by the separator they give the string back. -/
theorem StringRef.split_pieces (s : String) (Separator : Char) :
    (StringRef.split s Separator).length = s.data.count Separator + 1
    ∧ String.intercalate (String.singleton Separator) (StringRef.split s Separator) = s := by
  obtain ⟨p, ps, hp, hjoin, hcount⟩ :=
    StringRef.splitLoop_pieces Separator (s.length + 1) s.data (Nat.lt_succ_self _)
  unfold StringRef.split
  rw [hp]
  refine ⟨by simp [hcount], ?_⟩
  apply String.ext
  simp only [List.map_cons, String.intercalate, StringRef.intercalate_go_data]
  conv_rhs => rw [hjoin]
  simp [List.flatMap_map, String.singleton]

/-- C20: splitting the override variable keeps empty pieces.  For an option set with none
of -nostdinc, -nobuiltininc, -nostdlibinc, -nostdinc++ and an override string `s`, step
(3) of `AddClangSystemIncludeArgs`, and likewise `AddClangCXXStdlibIncludeArgs`, hands the
pieces of `s` to the include emitter, in order: one more piece than `s` has separators,
and the pieces joined by the separator are `s`.  A variable that is set but empty gives
the one directory "", which is not the built-in default directory. -/
theorem IncludeOverride_split_keeps_empty_pieces (TC : ToolChain)
    (getenv : String → Option String) (EnvPathSeparator : Char) (DriverArgs : ArgList)
    (CC1Args : ArgStringList) (s : String)
    (hNone : ∀ A ∈ DriverArgs, A.getOption.matches .OPT_nostdinc = false
        ∧ A.getOption.matches .OPT_nobuiltininc = false
        ∧ A.getOption.matches .OPT_nostdlibinc = false
        ∧ A.getOption.matches .OPT_nostdincxx = false) :
    (StringRef.split s EnvPathSeparator).length = s.data.count EnvPathSeparator + 1
    ∧ String.intercalate (String.singleton EnvPathSeparator)
        (StringRef.split s EnvPathSeparator) = s
    ∧ (getenv "NCC_C_INCLUDE_PATH" = some s →
        VEToolChain.AddClangSystemIncludeArgs TC getenv EnvPathSeparator DriverArgs CC1Args
          = addSystemInclude
              (addSystemIncludes CC1Args (StringRef.split s EnvPathSeparator))
              (path_append TC.ResourceDir "include"))
    ∧ (getenv "NCC_CPLUS_INCLUDE_PATH" = some s →
        VEToolChain.AddClangCXXStdlibIncludeArgs getenv EnvPathSeparator DriverArgs CC1Args
          = addSystemIncludes CC1Args (StringRef.split s EnvPathSeparator))
    ∧ StringRef.split "" EnvPathSeparator = [""]
    ∧ TC.SysRoot ++ "/opt/nec/ve/musl/include" ∉ StringRef.split "" EnvPathSeparator := by
  have n1 := ArgList.hasArg_eq_false DriverArgs .OPT_nostdinc (fun A hA => (hNone A hA).1)
  have n2 := ArgList.hasArg_eq_false DriverArgs .OPT_nobuiltininc (fun A hA => (hNone A hA).2.1)
  have n3 := ArgList.hasArg_eq_false DriverArgs .OPT_nostdlibinc
    (fun A hA => (hNone A hA).2.2.1)
  have n4 := ArgList.hasArg_eq_false DriverArgs .OPT_nostdincxx
    (fun A hA => (hNone A hA).2.2.2)
  have hEmpty : StringRef.split "" EnvPathSeparator = [""] := by
    simp [StringRef.split, StringRef.splitLoop, StringRef.find]
  refine ⟨(StringRef.split_pieces s EnvPathSeparator).1,
    (StringRef.split_pieces s EnvPathSeparator).2, ?_, ?_, hEmpty, ?_⟩
  · intro hEnv
    simp [VEToolChain.AddClangSystemIncludeArgs, n1, n2, n3, hEnv]
  · intro hEnv
    simp [VEToolChain.AddClangCXXStdlibIncludeArgs, n1, n3, n4, hEnv]
  · rw [hEmpty]
    simp only [List.mem_singleton]
    intro h
    have hd := congrArg String.data h
    simp [String.data_append] at hd

/-- The property C20 at the override `/x::/y`: two separators, three pieces, the middle
one empty. -/
theorem IncludeOverride_split_keeps_empty_pieces_witness :
    (∀ A ∈ [Sample.flag .OPT_v "-v"], A.getOption.matches .OPT_nostdinc = false
        ∧ A.getOption.matches .OPT_nobuiltininc = false
        ∧ A.getOption.matches .OPT_nostdlibinc = false
        ∧ A.getOption.matches .OPT_nostdincxx = false)
    ∧ StringRef.split "/x::/y" ':' = ["/x", "", "/y"]
    ∧ VEToolChain.AddClangCXXStdlibIncludeArgs Sample.getenvEmptyPiece ':'
        [Sample.flag .OPT_v "-v"] []
      = ["-internal-isystem", "/x", "-internal-isystem", "", "-internal-isystem", "/y"]
    ∧ ((StringRef.split "/x::/y" ':').length = "/x::/y".data.count ':' + 1
      ∧ String.intercalate (String.singleton ':') (StringRef.split "/x::/y" ':') = "/x::/y"
      ∧ (Sample.getenvEmptyPiece "NCC_C_INCLUDE_PATH" = some "/x::/y" →
          VEToolChain.AddClangSystemIncludeArgs Sample.TC Sample.getenvEmptyPiece ':'
              [Sample.flag .OPT_v "-v"] []
            = addSystemInclude (addSystemIncludes [] (StringRef.split "/x::/y" ':'))
                (path_append Sample.TC.ResourceDir "include"))
      ∧ (Sample.getenvEmptyPiece "NCC_CPLUS_INCLUDE_PATH" = some "/x::/y" →
          VEToolChain.AddClangCXXStdlibIncludeArgs Sample.getenvEmptyPiece ':'
              [Sample.flag .OPT_v "-v"] []
            = addSystemIncludes [] (StringRef.split "/x::/y" ':'))
      ∧ StringRef.split "" ':' = [""]
      ∧ Sample.TC.SysRoot ++ "/opt/nec/ve/musl/include" ∉ StringRef.split "" ':') :=
  ⟨by decide, by decide, by decide,
    IncludeOverride_split_keeps_empty_pieces Sample.TC Sample.getenvEmptyPiece ':'
      [Sample.flag .OPT_v "-v"] [] "/x::/y" (by decide)⟩

/-! ## The external tool -/

/-- C16, as the code has it: `tools::VE::Assembler::ConstructJob` and
`tools::VE::Linker::ConstructJob` each append exactly one command to the job list, unless
an assertion aborts the construction: for the assembler the assertion of `getFilename()`
at an output or input that is not a filename, for the linker the assertion on its output.
The earlier commands are unchanged and the declared inputs are the given input list.
Both adapters resolve the same fixed program name "ncc" through the tool chain; it is
not the name the adapter holds, which is "nas" for the assembler and "nld" for the
linker. -/
theorem ConstructJob_one_command_for_ncc (NDEBUG : Bool) (TC : ToolChain) (C : Compilation)
    (JA : JobAction) (Output : InputInfo) (Inputs : InputInfoList) (Args : ArgList) :
    (∃ Cmd, tools.VE.Assembler.ConstructJob NDEBUG TC C JA Output Inputs Args
          = (if NDEBUG || (Output.isFilename && Inputs.all InputInfo.isFilename) then
              some (C.addCommand Cmd)
             else none)
        ∧ (C.addCommand Cmd).Jobs = C.Jobs ++ [Cmd]
        ∧ Cmd.Inputs = Inputs
        ∧ Cmd.Creator = tools.VE.Assembler
        ∧ Cmd.Executable = TC.GetProgramPath "ncc")
    ∧ (∃ Cmd, tools.VE.Linker.ConstructJob NDEBUG TC C JA Output Inputs Args
          = (if Output.isFilename || (NDEBUG || Output.isNothing) then some (C.addCommand Cmd)
             else none)
        ∧ (C.addCommand Cmd).Jobs = C.Jobs ++ [Cmd]
        ∧ Cmd.Inputs = Inputs
        ∧ Cmd.Creator = tools.VE.Linker
        ∧ Cmd.Executable = TC.GetProgramPath "ncc")
    ∧ tools.VE.Assembler.ShortName = "nas" ∧ tools.VE.Linker.ShortName = "nld"
    ∧ "ncc" ≠ tools.VE.Assembler.ShortName ∧ "ncc" ≠ tools.VE.Linker.ShortName
    ∧ "ncc" ≠ tools.VE.Assembler.Name ∧ "ncc" ≠ tools.VE.Linker.Name :=
  ⟨⟨_, Assembler_ConstructJob_closed_form NDEBUG TC C JA Output Inputs Args, rfl, rfl, rfl, rfl⟩,
    ⟨_, Linker_ConstructJob_closed_form NDEBUG TC C JA Output Inputs Args, rfl, rfl, rfl, rfl⟩,
    rfl, rfl, by decide, by decide, by decide, by decide⟩

/-- C16 fails as stated: for the tool chain that finds a program in `/opt/nec/ve/bin`, the
commands of the assembler and of the linker both run `/opt/nec/ve/bin/ncc`, while the
names the two adapters hold resolve to `/opt/nec/ve/bin/nas` and `/opt/nec/ve/bin/nld`. -/
theorem ConstructJob_one_command_for_ncc_counterexample :
    (tools.VE.Assembler.ConstructJob false Sample.TC { Jobs := [] } { id := 0 }
        (Sample.file "a.o") [Sample.file "a.s"] []).map
          (fun C => C.Jobs.map Command.Executable) = some ["/opt/nec/ve/bin/ncc"]
    ∧ (tools.VE.Assembler.ConstructJob false Sample.TC { Jobs := [] } { id := 0 }
        (Sample.file "a.o") [Sample.file "a.s"] []).map
          (fun C => C.Jobs.map (fun Cmd => Sample.TC.GetProgramPath Cmd.Creator.ShortName))
        = some ["/opt/nec/ve/bin/nas"]
    ∧ (tools.VE.Linker.ConstructJob false Sample.TC { Jobs := [] } { id := 0 }
        (Sample.file "a.out") [Sample.file "a.o"] []).map
          (fun C => C.Jobs.map Command.Executable) = some ["/opt/nec/ve/bin/ncc"]
    ∧ (tools.VE.Linker.ConstructJob false Sample.TC { Jobs := [] } { id := 0 }
        (Sample.file "a.out") [Sample.file "a.o"] []).map
          (fun C => C.Jobs.map (fun Cmd => Sample.TC.GetProgramPath Cmd.Creator.ShortName))
        = some ["/opt/nec/ve/bin/nld"] := by
  decide
